import Mathlib

set_option maxHeartbeats 1000000

/-!
Verification development for the PSD extraction engine of the Thesis_Workflow
repository.  The Python sources are shallowly embedded: lines of the input
file are lists of characters, whitespace tokenisation mirrors str.split(),
numeric text is parsed into exact rationals (floating point arithmetic is
modelled as exact rational arithmetic), and missing values (NaN cells) are
modelled with Option.  Each embedded function keeps the name of the Python
function it translates where Lean allows it.
-/

/-! ## Character and token utilities -/

/-- Test for a sign character. -/
def isSignChar (c : Char) : Bool := c = '+' || c = '-'

/-- Head-character test on a character list. -/
def headIs (c : Char) : List Char → Bool
  | [] => false
  | a :: _ => a = c

/-- Numeric value of a digit character. -/
def digitVal (c : Char) : ℕ := c.toNat - 48

/-- Accumulating base-10 read of a digit string. -/
def digitsToNatAux (acc : ℕ) : List Char → ℕ
  | [] => acc
  | c :: cs => digitsToNatAux (10 * acc + digitVal c) cs

/-- Base-10 value of a digit string. -/
def digitsToNat (ds : List Char) : ℕ := digitsToNatAux 0 ds

/-- Longest digit run at the front of a character list, with the remainder
(the span step used when scanning a numeric literal). -/
def spanDigits : List Char → List Char × List Char
  | [] => ([], [])
  | c :: cs =>
    if c.isDigit then ((spanDigits cs).1.cons c, (spanDigits cs).2)
    else ([], c :: cs)

/-- Python line.split(): whitespace-delimited tokens, empty tokens dropped. -/
def wordsAux (acc : List Char) : List Char → List (List Char)
  | [] => if acc = [] then [] else [acc.reverse]
  | c :: cs =>
    if c.isWhitespace then
      (if acc = [] then wordsAux [] cs else acc.reverse :: wordsAux [] cs)
    else wordsAux (c :: acc) cs

/-- Tokens of a line, as produced by Python line.split(). -/
def words (s : List Char) : List (List Char) := wordsAux [] s

/-- Python truthiness of line.strip(): a line is blank when every character
is whitespace. -/
def isBlank (s : List Char) : Bool := s.all Char.isWhitespace

/-- Python line.startswith(p) on our character-list lines. -/
def startsWith (p s : List Char) : Bool := List.isPrefixOf p s

/-! ## Numeric literal parsing

Python float() and int() restricted to the plain decimal / scientific
grammar that solver output uses (no inf, nan or underscore forms).  The
parse is split into a purely syntactic stage (parseFloatRep?, which is
kernel-decidable) and a rational valuation (repVal). -/

/-- Exponent field of a scientific literal: optional sign then digits. -/
def parseExp (t : List Char) : Option ℤ :=
  if t = [] then none
  else if headIs '+' t then
    if t.tail ≠ [] ∧ (t.tail).all Char.isDigit then some (digitsToNat t.tail) else none
  else if headIs '-' t then
    if t.tail ≠ [] ∧ (t.tail).all Char.isDigit then some (-(digitsToNat t.tail : ℤ)) else none
  else if t.all Char.isDigit then some (digitsToNat t) else none

/-- Syntactic decomposition of a decimal or scientific literal: sign flag,
integer-part value, fraction-part value and digit count, exponent. -/
structure FloatRep where
  sgnNeg : Bool
  ip : ℕ
  fp : ℕ
  fpLen : ℕ
  ex : ℤ
deriving DecidableEq

/-- Body of the literal after the optional leading sign. -/
def parseRepBody (neg : Bool) (t : List Char) : Option FloatRep :=
  let ip := (spanDigits t).1
  let s2 := (spanDigits t).2
  let fp := if headIs '.' s2 then (spanDigits s2.tail).1 else []
  let s3 := if headIs '.' s2 then (spanDigits s2.tail).2 else s2
  if ip = [] ∧ fp = [] then none
  else if s3 = [] then some ⟨neg, digitsToNat ip, digitsToNat fp, fp.length, 0⟩
  else if headIs 'e' s3 ∨ headIs 'E' s3 then
    match parseExp s3.tail with
    | some ex => some ⟨neg, digitsToNat ip, digitsToNat fp, fp.length, ex⟩
    | none => none
  else none

/-- Syntactic stage of Python float() on a token. -/
def parseFloatRep? (s : List Char) : Option FloatRep :=
  if headIs '+' s then parseRepBody false s.tail
  else if headIs '-' s then parseRepBody true s.tail
  else parseRepBody false s

/-- Ten to a natural power, as a rational. -/
def pow10 (n : ℕ) : ℚ := (10 : ℚ) ^ n

/-- Ten to an integer power, as a rational. -/
def powTen (e : ℤ) : ℚ := if 0 ≤ e then (10 : ℚ) ^ e.toNat else 1 / (10 : ℚ) ^ (-e).toNat

/-- Rational value denoted by a decomposed literal. -/
def repVal (r : FloatRep) : ℚ :=
  (if r.sgnNeg then -1 else 1) * ((r.ip : ℚ) + (r.fp : ℚ) / pow10 r.fpLen) * powTen r.ex

/-- Python float() on a token: decimal or scientific notation, exact value. -/
def parseFloat? (s : List Char) : Option ℚ := (parseFloatRep? s).map repVal

/-- Python int() on a token: optional sign then digits. -/
def parseInt? (t : List Char) : Option ℤ :=
  if t = [] then none
  else if headIs '+' t then
    if t.tail ≠ [] ∧ (t.tail).all Char.isDigit then some (digitsToNat t.tail) else none
  else if headIs '-' t then
    if t.tail ≠ [] ∧ (t.tail).all Char.isDigit then some (-(digitsToNat t.tail : ℤ)) else none
  else if t.all Char.isDigit then some (digitsToNat t) else none


/-! ## Stable insertion sort

Python sorted() and list.sort() are stable; we model them with a stable
insertion sort parameterised by a boolean comparator r, where r x y means
x may stay in front of y. -/

/-- Insert x in front of the first element y with r x y. -/
def insertOrd (r : α → α → Bool) (x : α) : List α → List α
  | [] => [x]
  | y :: ys => if r x y then x :: y :: ys else y :: insertOrd r x ys

/-- Stable insertion sort with comparator r. -/
def sortOrd (r : α → α → Bool) : List α → List α
  | [] => []
  | x :: xs => insertOrd r x (sortOrd r xs)


/-! ## Trapezoidal integration

np.trapz(y, x) over paired samples: the sum of (x2 - x1) * (y1 + y2) / 2
over consecutive pairs, taken in the order the list supplies them. -/

/-- Trapezoidal sum over a list of (x, y) pairs in list order. -/
def trapzPairs : List (ℚ × ℚ) → ℚ
  | [] => 0
  | [_] => 0
  | p :: rest@(q :: _) => (q.1 - p.1) * (p.2 + q.2) / 2 + trapzPairs rest

/-! ## Pch_TO_CSV2.py: process_data_blocks and extract_frequency

The parser state mirrors the module-level globals data_dict, node_ids and
the loop-local current_header (the unused counters are dropped, and the
node/dof components of the current header are not tracked separately since
the source never reads them).  int() failure on a header token raises in
Python and aborts the whole run; the embedding returns none for that. -/

/-- The channel-start marker for acceleration blocks. -/
def accePfx : List Char := "$ACCE".toList

/-- The channel-start marker for displacement blocks. -/
def dispPfx : List Char := "$DISP".toList

/-- A generic solver header marker. -/
def dollarPfx : List Char := "$".toList

/-- Decimal rendering of an integer, as Python str formatting does. -/
def intToChars (t : ℤ) : List Char :=
  if t < 0 then '-' :: Nat.toDigits 10 t.natAbs else Nat.toDigits 10 t.natAbs

/-- Convert numeric translation ID to named degree of freedom. -/
def determine_translation_id (t : ℤ) : List Char :=
  if t = 3 then "T1".toList
  else if t = 4 then "T2".toList
  else if t = 5 then "T3".toList
  else if t = 6 then "R1".toList
  else if t = 7 then "R2".toList
  else if t = 8 then "R3".toList
  else "UNKNOWN-".toList ++ intToChars t

/-- Association-list lookup (Python dict read). -/
def lookupKey [DecidableEq κ] (k : κ) : List (κ × ν) → Option ν
  | [] => none
  | (k', v) :: rest => if k' = k then some v else lookupKey k rest

/-- Python containment test k in d. -/
def containsKey [DecidableEq κ] (k : κ) (d : List (κ × ν)) : Bool := (lookupKey k d).isSome

/-- Python dict assignment d[k] = v: replace in place or append at the end. -/
def setKey [DecidableEq κ] (k : κ) (v : ν) : List (κ × ν) → List (κ × ν)
  | [] => [(k, v)]
  | (k', v') :: rest => if k' = k then (k, v) :: rest else (k', v') :: setKey k v rest

/-- Python d[k].append(x) for a dict of lists (no-op when the key is absent,
which the source never reaches). -/
def appendAt [DecidableEq κ] (k : κ) (x : α) : List (κ × List α) → List (κ × List α)
  | [] => []
  | (k', vs) :: rest => if k' = k then (k', vs ++ [x]) :: rest else (k', vs) :: appendAt k x rest

/-- Python set.add on an insertion-ordered list of node ids. -/
def addNode (n : List Char) (ns : List (List Char)) : List (List Char) :=
  if n ∈ ns then ns else ns ++ [n]

/-- Parser state of process_data_blocks. -/
structure CsvState where
  dataDict : List (List Char × List ℚ)
  nodeIds : List (List Char)
  currentHeader : Option (List Char)
deriving DecidableEq

/-- Initial parser state (fresh globals). -/
def initCsv : CsvState := ⟨[], [], none⟩

/-- The dict key f-string ACCE-node-dof. -/
def acceHeaderOf (node dof : List Char) : List Char :=
  "ACCE-".toList ++ node ++ "-".toList ++ dof

/-- The dict key f-string DISP-node-dof. -/
def dispHeaderOf (node dof : List Char) : List Char :=
  "DISP-".toList ++ node ++ "-".toList ++ dof

/-- Shared body of the two (textually duplicated) channel-header branches of
process_data_blocks, parameterised by the key builder. -/
def csvHeaderStep (mk : List Char → List Char → List Char) (s : CsvState)
    (line : List Char) : Option CsvState :=
  let parts := words line
  if 5 ≤ parts.length then
    match parseInt? (parts.getD 3 []) with
    | none => none
    | some tid =>
      let node := parts.getD 2 []
      let h := mk node (determine_translation_id tid)
      some { dataDict := if containsKey h s.dataDict then s.dataDict else s.dataDict ++ [(h, [])],
             nodeIds := addNode node s.nodeIds,
             currentHeader := some h }
  else some s

/-- One line of the process_data_blocks loop. -/
def csvStep (s : CsvState) (line : List Char) : Option CsvState :=
  if startsWith accePfx line then csvHeaderStep acceHeaderOf s line
  else if startsWith dispPfx line then csvHeaderStep dispHeaderOf s line
  else if isBlank line = false ∧ s.currentHeader.isSome then
    let h := s.currentHeader.getD []
    let parts := words line
    if 4 ≤ parts.length then
      match parseFloat? (parts.getD 2 []) with
      | some v => some { s with dataDict := appendAt h v s.dataDict }
      | none => some s
    else some s
  else if isBlank line then some { s with currentHeader := none }
  else some s

/-- Process ACCE and DISP data blocks from the input file. -/
def process_data_blocks (s : CsvState) : List (List Char) → Option CsvState
  | [] => some s
  | l :: ls =>
    match csvStep s l with
    | none => none
    | some s' => process_data_blocks s' ls

/-- Run from fresh globals, as create_combined_data does. -/
def runCsv (lines : List (List Char)) : Option CsvState := process_data_blocks initCsv lines

/-- State of the extract_frequency scan. -/
structure FreqState where
  within : Bool
  freqs : List ℚ
deriving DecidableEq

/-- One line of the extract_frequency loop. -/
def freqStep (s : FreqState) (line : List Char) : FreqState :=
  if startsWith accePfx line || startsWith dispPfx line then { s with within := true }
  else if s.within then
    if isBlank line then { within := false, freqs := s.freqs }
    else
      let parts := words line
      if 4 ≤ parts.length then
        match parseFloat? (parts.getD 1 []) with
        | some f => if f ∈ s.freqs then s else { within := s.within, freqs := s.freqs ++ [f] }
        | none => s
      else s
  else s

/-- Extract frequency data from the input file: the deduplicated frequency
list in encounter order. -/
def extract_frequency (lines : List (List Char)) : List ℚ :=
  (lines.foldl freqStep { within := false, freqs := [] }).freqs

/-- The sorted frequency axis: create_combined_data sorts the Frequency list
before building the DataFrame. -/
def axisOf (lines : List (List Char)) : List ℚ :=
  sortOrd (fun a b => decide (a ≤ b)) (extract_frequency lines)

/-! ## Peak extraction (Pch_TO_CSV2.find_top_three_local_maxima)

The function is embedded for a single channel column paired against the
frequency axis, which is how create_combined_data invokes it. -/

/-- Structural sum of a list of rationals. -/
def sumQ : List ℚ → ℚ
  | [] => 0
  | x :: xs => x + sumQ xs

/-- Full discrete convolution of vals with the length-w averaging kernel
np.ones(w)/w at output index k, with zero padding outside the list. -/
def convFull (vals : List ℚ) (w : ℕ) (k : ℕ) : ℚ :=
  sumQ ((List.range vals.length).map (fun j => if j ≤ k ∧ k < j + w then vals.getD j 0 else 0))
    / (w : ℚ)

/-- np.convolve(vals, np.ones(w)/w, mode='same'): the middle section of the
full convolution, offset by (w-1)/2. -/
def convolveSame (vals : List ℚ) (w : ℕ) : List ℚ :=
  (List.range vals.length).map (fun i => convFull vals w (i + (w - 1) / 2))

/-- The light smoothing step: window size min(5, n/10+1), applied only when
it exceeds 1 and the series is longer than the window. -/
def smoothList (vals : List ℚ) : List ℚ :=
  let n := vals.length
  let w := min 5 (n / 10 + 1)
  if 1 < w ∧ w < n then convolveSame vals w else vals

/-- Strict interior local-maximum test on the smoothed series. -/
def isLocalMaxIdx (sm : List ℚ) (i : ℕ) : Bool :=
  decide (1 ≤ i) && decide (i + 1 < sm.length) &&
  decide (sm.getD (i - 1) 0 < sm.getD i 0) && decide (sm.getD (i + 1) 0 < sm.getD i 0)

/-- Indices flagged as local maxima, in ascending order. -/
def localMaxIndices (sm : List ℚ) : List ℕ :=
  (List.range sm.length).filter (fun i => isLocalMaxIdx sm i)

/-- Ascending stable argsort of the raw values (np.argsort). -/
def argsortAsc (vals : List ℚ) : List ℕ :=
  sortOrd (fun i j => decide (vals.getD i 0 ≤ vals.getD j 0)) (List.range vals.length)

/-- The indices selected by np.argsort(vals)[-3:]. -/
def top3Idx (vals : List ℚ) : List ℕ := (argsortAsc vals).drop (vals.length - 3)

/-- Candidate peak indices: the strict local maxima; when there are none
(flat data) the mask is re-marked at the three globally largest values, and
np.where reads the marked indices back in ascending index order. -/
def candIdx (vals : List ℚ) : List ℕ :=
  let lm := localMaxIndices (smoothList vals)
  if lm = [] then (List.range vals.length).filter (fun i => decide (i ∈ top3Idx vals)) else lm

/-- Find the top three local maxima of one PSD column with improved
robustness (fallback to global maxima, fill from highest non-maxima, top 3
by value, presented in ascending frequency order). -/
def find_top_three_local_maxima (freqs vals : List ℚ) : List (ℚ × ℚ) :=
  let n := vals.length
  let ci := candIdx vals
  let cands := ci.map (fun i => (freqs.getD i 0, vals.getD i 0))
  let filled :=
    if cands.length < 3 then
      let nonMax := (List.range n).filter (fun i => decide (i ∉ ci))
      let sortedNM := sortOrd (fun i j => decide (vals.getD i 0 ≤ vals.getD j 0)) nonMax
      cands ++ (sortedNM.reverse.take (3 - cands.length)).map
        (fun i => (freqs.getD i 0, vals.getD i 0))
    else cands
  let top3 := (sortOrd (fun a b => decide (b.2 ≤ a.2)) filled).take 3
  sortOrd (fun a b => decide (a.1 ≤ b.1)) top3

/-! ## Pch_TO_Database.py: parse_pch_file, nastran_float, find_peaks,
calculate_area -/

/-- Response kind of a data block. -/
inductive DType
  | acce
  | disp
deriving DecidableEq

/-- Parser state of parse_pch_file: the two per-kind channel maps keyed by
(node id, DOF name), and the block being collected. -/
structure PchState where
  acce : List ((ℤ × List Char) × List (ℚ × ℚ))
  disp : List ((ℤ × List Char) × List (ℚ × ℚ))
  currentType : Option DType
  currentNode : Option ℤ
  currentDof : Option (List Char)
  currentData : List (ℚ × ℚ)
deriving DecidableEq

/-- Fresh parse_pch_file state. -/
def initPch : PchState := ⟨[], [], none, none, none, []⟩

/-- dof_mapping.get(dof_num, f-string DOF fallback) in parse_pch_file. -/
def dofNameDb (t : ℤ) : List Char :=
  if t = 3 then "T1".toList
  else if t = 4 then "T2".toList
  else if t = 5 then "T3".toList
  else if t = 6 then "R1".toList
  else if t = 7 then "R2".toList
  else if t = 8 then "R3".toList
  else "DOF".toList ++ intToChars t

/-- Save the block being collected, under the Python truthiness guard
(current_type and current_node and current_dof and current_data): the save
is a dict assignment, so it replaces any series already stored at the key. -/
def flushPch (s : PchState) : PchState :=
  match s.currentType, s.currentNode, s.currentDof with
  | some DType.acce, some n, some d =>
    if n ≠ 0 ∧ s.currentData ≠ [] then
      { s with acce := setKey (n, d) s.currentData s.acce } else s
  | some DType.disp, some n, some d =>
    if n ≠ 0 ∧ s.currentData ≠ [] then
      { s with disp := setKey (n, d) s.currentData s.disp } else s
  | _, _, _ => s

/-- Shared body of the two channel-header branches of parse_pch_file. -/
def pchHeaderStep (ty : DType) (s : PchState) (line : List Char) : Option PchState :=
  let s1 := flushPch s
  let parts := words line
  if 5 ≤ parts.length then
    match parseInt? (parts.getD 2 []), parseInt? (parts.getD 3 []) with
    | some nd, some dn =>
      some { s1 with currentType := some ty, currentNode := some nd, currentDof := some (dofNameDb dn), currentData := [] }
    | _, _ => none
  else some s1

/-- One line of the parse_pch_file loop. -/
def pchStep (s : PchState) (line : List Char) : Option PchState :=
  if startsWith accePfx line then pchHeaderStep DType.acce s line
  else if startsWith dispPfx line then pchHeaderStep DType.disp s line
  else if startsWith dollarPfx line then
    some { flushPch s with currentType := none, currentNode := none, currentDof := none, currentData := [] }
  else if s.currentType.isSome ∧ isBlank line = false then
    let parts := words line
    if 3 ≤ parts.length then
      match parseFloat? (parts.getD 1 []), parseFloat? (parts.getD 2 []) with
      | some f, some p => some { s with currentData := s.currentData ++ [(f, p)] }
      | _, _ => some s
    else some s
  else some s

/-- Fold of pchStep over the lines. -/
def runPch (s : PchState) : List (List Char) → Option PchState
  | [] => some s
  | l :: ls =>
    match pchStep s l with
    | none => none
    | some s' => runPch s' ls

/-- Parse Nastran PCH file: the acceleration and displacement channel maps
after the final flush (none = an int() call raised). -/
def parse_pch_file (lines : List (List Char)) :
    Option (List ((ℤ × List Char) × List (ℚ × ℚ)) × List ((ℤ × List Char) × List (ℚ × ℚ))) :=
  (runPch initPch lines).map (fun s => ((flushPch s).acce, (flushPch s).disp))

/-- First re.sub pass of nastran_float: a digit, a dot, a sign and a digit
gain a synthetic E before the sign. -/
def nastranSub1 : List Char → List Char
  | a :: b :: s :: d :: rest =>
    if a.isDigit && (b = '.') && isSignChar s && d.isDigit then
      a :: '.' :: 'E' :: s :: d :: nastranSub1 rest
    else a :: nastranSub1 (b :: s :: d :: rest)
  | a :: rest => a :: nastranSub1 rest
  | [] => []

/-- Second re.sub pass: digit, dot, one or more digits, sign, digit.  The
recursion is indexed by fuel for structural recursion; the wrapper supplies
fuel at least the list length, which never runs out. -/
def nastranSub2 : ℕ → List Char → List Char
  | 0, l => l
  | _ + 1, [] => []
  | fuel + 1, a :: rest =>
    if a.isDigit && headIs '.' rest then
      match spanDigits rest.tail with
      | (d :: ds, s :: e :: rest3) =>
        if isSignChar s && e.isDigit then
          a :: '.' :: ((d :: ds) ++ 'E' :: s :: e :: nastranSub2 fuel rest3)
        else a :: nastranSub2 fuel rest
      | _ => a :: nastranSub2 fuel rest
    else a :: nastranSub2 fuel rest

/-- Third re.sub pass: digit, sign, digit. -/
def nastranSub3 : List Char → List Char
  | a :: s :: d :: rest =>
    if a.isDigit && isSignChar s && d.isDigit then
      a :: 'E' :: s :: d :: nastranSub3 rest
    else a :: nastranSub3 (s :: d :: rest)
  | a :: rest => a :: nastranSub3 rest
  | [] => []

/-- Python str.strip(). -/
def trimChars (s : List Char) : List Char :=
  ((s.dropWhile Char.isWhitespace).reverse.dropWhile Char.isWhitespace).reverse

/-- The full rewriting chain of nastran_float on the stripped token. -/
def nastranTransform (s : List Char) : List Char :=
  nastranSub3 (nastranSub2 (nastranSub1 (trimChars s)).length (nastranSub1 (trimChars s)))

/-- Convert Nastran shorthand notation to a float (none = ValueError). -/
def nastran_float (s : List Char) : Option ℚ := parseFloat? (nastranTransform s)

/-- Strict interior local maxima of raw (freq, psd) pairs, no smoothing
(the loop of Pch_TO_Database.find_peaks). -/
def peakIndices (l : List (ℚ × ℚ)) : List ℕ :=
  (List.range l.length).filter (fun i =>
    decide (1 ≤ i) && decide (i + 1 < l.length) &&
    decide ((l.getD (i - 1) (0, 0)).2 < (l.getD i (0, 0)).2) &&
    decide ((l.getD (i + 1) (0, 0)).2 < (l.getD i (0, 0)).2))

/-- Find top N peaks in PSD data (Pch_TO_Database.find_peaks): strict local
maxima sorted by value descending, first n taken; no fallback. -/
def find_peaks (l : List (ℚ × ℚ)) (n : ℕ) : List (ℚ × ℚ) :=
  if l = [] then []
  else (sortOrd (fun a b => decide (b.2 ≤ a.2))
    ((peakIndices l).map (fun i => l.getD i (0, 0)))).take n

/-- Calculate area under PSD curve using trapezoidal rule, in the order the
list supplies the samples (Pch_TO_Database.calculate_area). -/
def calculate_area (l : List (ℚ × ℚ)) : ℚ := if l.length < 2 then 0 else trapzPairs l

/-- Comparison definition for claim C5, written from the words of the
specification: the trapezoidal integral over the series sorted into
ascending frequency order. -/
def specSortedArea (l : List (ℚ × ℚ)) : ℚ :=
  trapzPairs (sortOrd (fun a b => decide (a.1 ≤ b.1)) l)

/-! ## Baseline delta (Pch_TO_CSV2.create_delta_files and
Scripts/compute_delta.py)

A table cell is Option ℚ with none standing for a NaN (missing) cell. -/

/-- Python abs on a rational. -/
def pyabs (x : ℚ) : ℚ := if x < 0 then -x else x

/-- pandas Series.subtract with fill_value=0: a side that is NaN is
replaced by 0 unless both sides are NaN. -/
def subtract_fill (b c : Option ℚ) : Option ℚ :=
  match b, c with
  | some bv, some cv => some (bv - cv)
  | some bv, none => some (bv - 0)
  | none, some cv => some (0 - cv)
  | none, none => none

/-- The deadband lambda (0 if abs(x) < 1e-6 else x).  On a NaN cell the
Python comparison abs(nan) < 1e-6 is False, so the cell passes through. -/
def apply_deadband : Option ℚ → Option ℚ
  | none => none
  | some x => some (if pyabs x < 1/1000000 then 0 else x)

/-- One delta cell of create_delta_files. -/
def delta_cell (b c : Option ℚ) : Option ℚ := apply_deadband (subtract_fill b c)

/-- One node column of the delta table of create_delta_files:
baseline.subtract(current, fill_value=0), then the deadband per cell. -/
def delta_column (bcol ccol : List (Option ℚ)) : List (Option ℚ) :=
  (List.zipWith subtract_fill bcol ccol).map apply_deadband

/-- Plain subtraction of compute_delta.py (NaN propagates from either
side). -/
def subtract_plain (b c : Option ℚ) : Option ℚ :=
  match b, c with
  | some bv, some cv => some (bv - cv)
  | _, _ => none

/-- One delta cell of compute_delta.py. -/
def compute_delta_cell (b c : Option ℚ) : Option ℚ := apply_deadband (subtract_plain b c)

/-- Table-level delta of create_delta_files: columns paired positionally. -/
def delta_table (bt ct : List (List (Option ℚ))) : List (List (Option ℚ)) :=
  List.zipWith delta_column bt ct

/-! ## Table assembly (Pch_TO_CSV2.create_combined_data)

The per-node dictionaries acce_node_data / disp_node_data and the reverse
name search that fills the transposed per-node column. -/

/-- The six DOF names, in the order create_combined_data iterates them. -/
def dofTypes : List (List Char) :=
  ["T1".toList, "T2".toList, "T3".toList, "R1".toList, "R2".toList, "R3".toList]

/-- The six peak cells (Frequency_i and PSD_i keys) built from the result of
find_top_three_local_maxima; ranks beyond the found peaks are NaN. -/
def peakCells (dof : List Char) (mx : List (ℚ × ℚ)) : List (List Char × Option ℚ) :=
  [(dof ++ "_Frequency_1".toList, (mx.get? 0).map Prod.fst),
   (dof ++ "_PSD_1".toList, (mx.get? 0).map Prod.snd),
   (dof ++ "_Frequency_2".toList, (mx.get? 1).map Prod.fst),
   (dof ++ "_PSD_2".toList, (mx.get? 1).map Prod.snd),
   (dof ++ "_Frequency_3".toList, (mx.get? 2).map Prod.fst),
   (dof ++ "_PSD_3".toList, (mx.get? 2).map Prod.snd)]

/-- The six peak cells all set to the constant v (the rotational-DOF zero
policy). -/
def constPeakCells (dof : List Char) (v : Option ℚ) : List (List Char × Option ℚ) :=
  [(dof ++ "_Frequency_1".toList, v),
   (dof ++ "_PSD_1".toList, v),
   (dof ++ "_Frequency_2".toList, v),
   (dof ++ "_PSD_2".toList, v),
   (dof ++ "_Frequency_3".toList, v),
   (dof ++ "_PSD_3".toList, v)]

/-- The seven acceleration cells for one (node, dof): area then the peak
cells when the channel is present; otherwise zero on rotational DOFs and
NaN elsewhere. -/
def acceDofCells (dd : List (List Char × List ℚ)) (axis : List ℚ) (node dof : List Char) :
    List (List Char × Option ℚ) :=
  match lookupKey (acceHeaderOf node dof) dd with
  | some vals =>
    (dof ++ "_Area".toList, some (trapzPairs (axis.zip vals))) ::
      peakCells dof (find_top_three_local_maxima axis vals)
  | none =>
    if dof = "R1".toList ∨ dof = "R2".toList ∨ dof = "R3".toList then
      (dof ++ "_Area".toList, some 0) :: constPeakCells dof (some 0)
    else
      (dof ++ "_Area".toList, none) :: constPeakCells dof none

/-- The seven displacement cells for one (node, dof): as for acceleration
but every missing combination is NaN. -/
def dispDofCells (dd : List (List Char × List ℚ)) (axis : List ℚ) (node dof : List Char) :
    List (List Char × Option ℚ) :=
  match lookupKey (dispHeaderOf node dof) dd with
  | some vals =>
    (dof ++ "_Area".toList, some (trapzPairs (axis.zip vals))) ::
      peakCells dof (find_top_three_local_maxima axis vals)
  | none =>
    (dof ++ "_Area".toList, none) :: constPeakCells dof none

/-- The full acce_node_data dictionary for one node, over the six DOFs. -/
def acceNodeCells (dd : List (List Char × List ℚ)) (axis : List ℚ) (node : List Char) :
    List (List Char × Option ℚ) :=
  dofTypes.flatMap (fun dof => acceDofCells dd axis node dof)

/-- The custom-name pairs (internal key, custom name) the source generates
for one acceleration DOF, in generation order. -/
def acceMetricPairs (dof : List Char) : List (List Char × List Char) :=
  [(dof ++ "_Area".toList, "ACCE_".toList ++ dof ++ "_Area".toList),
   (dof ++ "_Frequency_1".toList, "ACCE_".toList ++ dof ++ "_Frequency_1".toList),
   (dof ++ "_PSD_1".toList, "ACCE_".toList ++ dof ++ "_PSD_1".toList),
   (dof ++ "_Frequency_2".toList, "ACCE_".toList ++ dof ++ "_Frequency_2".toList),
   (dof ++ "_PSD_2".toList, "ACCE_".toList ++ dof ++ "_PSD_2".toList),
   (dof ++ "_Frequency_3".toList, "ACCE_".toList ++ dof ++ "_Frequency_3".toList),
   (dof ++ "_PSD_3".toList, "ACCE_".toList ++ dof ++ "_PSD_3".toList)]

/-- acce_name_mapping: internal key to custom measurement name. -/
def acceNameMapping : List (List Char × List Char) := dofTypes.flatMap acceMetricPairs

/-- The reverse search of the output loop: the internal name whose custom
name equals meas (first match, as the Python loop breaks on it). -/
def stdNameFor (meas : List Char) : Option (List Char) :=
  (acceNameMapping.find? (fun p => decide (p.2 = meas))).map Prod.fst

/-- The assembled cell of the transposed acceleration table for measurement
meas in the column of the given node (none = NaN, rendered empty). -/
def acceColumnValue (dd : List (List Char × List ℚ)) (axis : List ℚ)
    (node meas : List Char) : Option ℚ :=
  match stdNameFor meas with
  | none => none
  | some std =>
    match lookupKey std (acceNodeCells dd axis node) with
    | some cell => cell
    | none => none

/-- End-to-end: both file passes of create_combined_data followed by the
cell read of the transposed acceleration table (outer none = the run
raised). -/
def acceCellOfRun (lines : List (List Char)) (node meas : List Char) : Option (Option ℚ) :=
  (runCsv lines).map (fun s => acceColumnValue s.dataDict (axisOf lines) node meas)

/-! ## Concrete inputs used by the claims -/

/-- Claim C1 and C2 input lines: one acceleration block, node 222, DOF 3. -/
def c1Lines : List (List Char) :=
  ["$ACCE 0 222 3 X".toList, "1 1.0 0.5 2".toList, "1 2.0 1.5 2".toList, "1 3.0 0.2 2".toList]

/-- Claim C2 counterexample input: a non-channel dollar header interrupts a
block and is followed by one more data row. -/
def c2Lines : List (List Char) :=
  ["$ACCE 0 7 3 X".toList, "1 1.0 0.5 2".toList, "$EOF 1 2.5 3".toList, "1 2.0 1.5 2".toList]

/-- Claim C4 counterexample input: the same channel header twice. -/
def c4Lines : List (List Char) :=
  ["$ACCE 0 5 3 X".toList, "1 1.0 1.0 2".toList, "$ACCE 0 5 3 X".toList, "1 2.0 2.0 2".toList]

/-- Claim C7 concrete input: channels reporting frequencies 1,2,2,3 and
2,3,4. -/
def c7Lines : List (List Char) :=
  ["$ACCE 0 1 3 X".toList, "1 1.0 9.0 2".toList, "1 2.0 9.0 2".toList, "1 2.0 8.0 2".toList,
   "1 3.0 9.0 2".toList, "".toList,
   "$ACCE 0 2 3 X".toList, "1 2.0 7.0 2".toList, "1 3.0 7.0 2".toList, "1 4.0 7.0 2".toList]

/-- Claim C5 counterexample series: file-encounter order not ascending in
frequency. -/
def c5List : List (ℚ × ℚ) := [(2, 1), (1, 1), (3, 1)]

/-- Claim C6 counterexample series: constant value, length 3. -/
def c6FlatList : List (ℚ × ℚ) := [(1, 5), (2, 5), (3, 5)]

/-- No plus or minus sign in the token directly follows a digit or a dot:
under this condition none of the three nastran_float rewrites can fire. -/
def noCompactSign (l : List Char) : Prop :=
  l.Chain' (fun a b => isSignChar b = true → a.isDigit = false ∧ a ≠ '.')

/-! ## Helper lemmas -/

@[simp] theorem digitVal_0 : digitVal '0' = 0 := by decide
@[simp] theorem digitVal_1 : digitVal '1' = 1 := by decide
@[simp] theorem digitVal_2 : digitVal '2' = 2 := by decide
@[simp] theorem digitVal_3 : digitVal '3' = 3 := by decide
@[simp] theorem digitVal_4 : digitVal '4' = 4 := by decide
@[simp] theorem digitVal_5 : digitVal '5' = 5 := by decide
@[simp] theorem digitVal_6 : digitVal '6' = 6 := by decide
@[simp] theorem digitVal_7 : digitVal '7' = 7 := by decide
@[simp] theorem digitVal_8 : digitVal '8' = 8 := by decide
@[simp] theorem digitVal_9 : digitVal '9' = 9 := by decide

@[simp] theorem powTen_zero : powTen 0 = 1 := by
  rw [powTen, if_pos le_rfl, show Int.toNat 0 = 0 from by decide]
  norm_num

-- evaluation lemmas for the concrete tokens used in the test inputs
theorem parseFloat_1p0 : parseFloat? ("1.0".toList) = some 1 := by
  rw [parseFloat?, show parseFloatRep? ("1.0".toList) = some ⟨false, 1, 0, 1, 0⟩ from by decide]
  norm_num [repVal, pow10]

theorem parseFloat_2p0 : parseFloat? ("2.0".toList) = some 2 := by
  rw [parseFloat?, show parseFloatRep? ("2.0".toList) = some ⟨false, 2, 0, 1, 0⟩ from by decide]
  norm_num [repVal, pow10]

theorem parseFloat_3p0 : parseFloat? ("3.0".toList) = some 3 := by
  rw [parseFloat?, show parseFloatRep? ("3.0".toList) = some ⟨false, 3, 0, 1, 0⟩ from by decide]
  norm_num [repVal, pow10]

theorem parseFloat_4p0 : parseFloat? ("4.0".toList) = some 4 := by
  rw [parseFloat?, show parseFloatRep? ("4.0".toList) = some ⟨false, 4, 0, 1, 0⟩ from by decide]
  norm_num [repVal, pow10]

theorem parseFloat_0p5 : parseFloat? ("0.5".toList) = some (1/2) := by
  rw [parseFloat?, show parseFloatRep? ("0.5".toList) = some ⟨false, 0, 5, 1, 0⟩ from by decide]
  norm_num [repVal, pow10]

theorem parseFloat_1p5 : parseFloat? ("1.5".toList) = some (3/2) := by
  rw [parseFloat?, show parseFloatRep? ("1.5".toList) = some ⟨false, 1, 5, 1, 0⟩ from by decide]
  norm_num [repVal, pow10]

theorem parseFloat_0p2 : parseFloat? ("0.2".toList) = some (1/5) := by
  rw [parseFloat?, show parseFloatRep? ("0.2".toList) = some ⟨false, 0, 2, 1, 0⟩ from by decide]
  norm_num [repVal, pow10]

theorem parseFloat_2p5 : parseFloat? ("2.5".toList) = some (5/2) := by
  rw [parseFloat?, show parseFloatRep? ("2.5".toList) = some ⟨false, 2, 5, 1, 0⟩ from by decide]
  norm_num [repVal, pow10]


theorem insertOrd_perm (r : α → α → Bool) (x : α) (l : List α) :
    List.Perm (insertOrd r x l) (x :: l) := by
  induction l with
  | nil => simp [insertOrd]
  | cons y ys ih =>
    rw [insertOrd]
    by_cases h : r x y
    · rw [if_pos h]
    · rw [if_neg h]
      exact (ih.cons y).trans (List.Perm.swap x y ys)

theorem sortOrd_perm (r : α → α → Bool) (l : List α) : List.Perm (sortOrd r l) l := by
  induction l with
  | nil => simp [sortOrd]
  | cons x xs ih =>
    rw [sortOrd]
    exact (insertOrd_perm r x (sortOrd r xs)).trans (ih.cons x)

theorem sortOrd_length (r : α → α → Bool) (l : List α) :
    (sortOrd r l).length = l.length :=
  (sortOrd_perm r l).length_eq

theorem mem_insertOrd (r : α → α → Bool) (x a : α) (l : List α) :
    a ∈ insertOrd r x l ↔ a = x ∨ a ∈ l := by
  rw [(insertOrd_perm r x l).mem_iff, List.mem_cons]

theorem insertOrd_pairwise (r : α → α → Bool)
    (htot : ∀ a b, r a b = true ∨ r b a = true)
    (htrans : ∀ a b c, r a b = true → r b c = true → r a c = true)
    (x : α) (l : List α) (hl : l.Pairwise (fun a b => r a b = true)) :
    (insertOrd r x l).Pairwise (fun a b => r a b = true) := by
  induction l with
  | nil => simp [insertOrd]
  | cons y ys ih =>
    rw [insertOrd]
    by_cases h : r x y
    · rw [if_pos h]
      refine List.Pairwise.cons ?_ hl
      intro z hz
      rcases List.mem_cons.mp hz with hz | hz
      · rw [hz]; exact h
      · exact htrans x y z h (List.rel_of_pairwise_cons hl hz)
    · rw [if_neg h]
      refine List.Pairwise.cons ?_ (ih hl.of_cons)
      intro z hz
      rcases (mem_insertOrd r x z ys).mp hz with hz | hz
      · rw [hz]
        exact (htot x y).resolve_left (by simpa using h)
      · exact List.rel_of_pairwise_cons hl hz

theorem sortOrd_pairwise (r : α → α → Bool)
    (htot : ∀ a b, r a b = true ∨ r b a = true)
    (htrans : ∀ a b c, r a b = true → r b c = true → r a c = true)
    (l : List α) : (sortOrd r l).Pairwise (fun a b => r a b = true) := by
  induction l with
  | nil => simp [sortOrd]
  | cons x xs ih => exact insertOrd_pairwise r htot htrans x (sortOrd r xs) ih

/-- Sorting a list that is already sorted (as a chain) leaves it unchanged. -/
theorem sortOrd_eq_self (r : α → α → Bool) (l : List α)
    (h : l.Chain' (fun a b => r a b = true)) : sortOrd r l = l := by
  induction l with
  | nil => rfl
  | cons x xs ih =>
    rw [sortOrd, ih h.tail]
    cases xs with
    | nil => rfl
    | cons y ys =>
      rw [insertOrd, if_pos (List.chain'_cons.mp h).1]

theorem pyabs_eq_abs (x : ℚ) : pyabs x = |x| := by
  rw [pyabs]
  rcases lt_or_le x 0 with h | h
  · rw [if_pos h, abs_of_neg h]
  · rw [if_neg (not_lt.mpr h), abs_of_nonneg h]

theorem pyabs_neg (x : ℚ) : pyabs (-x) = pyabs x := by
  rw [pyabs_eq_abs, pyabs_eq_abs, abs_neg]

theorem delta_cell_same (x : ℚ) : delta_cell (some x) (some x) = some 0 := by
  have : pyabs (x - x) < 1/1000000 := by
    rw [sub_self, pyabs]
    norm_num
  simp [delta_cell, subtract_fill, apply_deadband, if_pos this]

theorem delta_column_same (col : List ℚ) :
    delta_column (col.map some) (col.map some) = col.map (fun _ => some 0) := by
  induction col with
  | nil => rfl
  | cons x xs ih =>
    rw [delta_column] at ih ⊢
    rw [List.map_cons, List.zipWith_cons_cons, List.map_cons, ih, List.map_cons]
    congr 1
    have := delta_cell_same x
    rw [delta_cell] at this
    exact this

/-! ## Claim C8: the delta rule -/

/-- Claim C8: for cells present in both tables the delta is baseline minus
current, zeroed exactly when its absolute value is below 1e-6 (in both
create_delta_files and compute_delta.py); the delta of two identical numeric
tables is all-zero; a difference of exactly 5e-7 collapses to 0 and a
difference of 1e-5 is kept as the signed difference. -/
theorem C8_delta_rule :
    (∀ b c : ℚ,
      delta_cell (some b) (some c) = some (if |b - c| < 1/1000000 then 0 else b - c) ∧
      compute_delta_cell (some b) (some c) = some (if |b - c| < 1/1000000 then 0 else b - c)) ∧
    (∀ t : List (List ℚ),
      delta_table (t.map (fun col => col.map some)) (t.map (fun col => col.map some)) =
        t.map (fun col => col.map (fun _ => some 0))) ∧
    delta_cell (some (1/2000000)) (some 0) = some 0 ∧
    delta_cell (some (1/100000)) (some 0) = some (1/100000) := by
  refine ⟨fun b c => ?_, fun t => ?_, ?_, ?_⟩
  · constructor
    · simp [delta_cell, subtract_fill, apply_deadband, pyabs_eq_abs]
    · simp [compute_delta_cell, subtract_plain, apply_deadband, pyabs_eq_abs]
  · rw [delta_table]
    induction t with
    | nil => rfl
    | cons col rest ih =>
      rw [List.map_cons, List.map_cons, List.zipWith_cons_cons, ih, delta_column_same]
  · rw [delta_cell, subtract_fill, apply_deadband]
    norm_num [pyabs]
  · rw [delta_cell, subtract_fill, apply_deadband]
    norm_num [pyabs]

/-! ## Claim C10: NaN handling in the delta -/

/-- Claim C10: in create_delta_files a cell that is NaN on exactly one side
is treated as 0 on that side, so the delta is the deadbanded signed value of
the present cell; a cell NaN on both sides stays NaN (the deadband test on
NaN is false), never 0. -/
theorem C10_nan_fill :
    (∀ b : ℚ, delta_cell (some b) none = some (if |b| < 1/1000000 then 0 else b)) ∧
    (∀ c : ℚ, delta_cell none (some c) = some (if |c| < 1/1000000 then 0 else -c)) ∧
    delta_cell none none = none ∧ delta_cell none none ≠ some 0 := by
  refine ⟨fun b => ?_, fun c => ?_, rfl, by rw [delta_cell]; exact fun h => by cases h⟩
  · simp [delta_cell, subtract_fill, apply_deadband, pyabs_eq_abs]
  · simp [delta_cell, subtract_fill, apply_deadband, pyabs_eq_abs, zero_sub, abs_neg]

/-! ## Claim C5: area and frequency order -/

/-- Claim C5 counterexample: calculate_area integrates in file-encounter
order without sorting; on the series (2,1),(1,1),(3,1) it yields 1, while
the frequency-sorted trapezoidal integral the claim asserts is 2. -/
theorem C5_counterexample :
    calculate_area c5List = 1 ∧ specSortedArea c5List = 2 ∧
    calculate_area c5List ≠ specSortedArea c5List := by
  refine ⟨?_, ?_, ?_⟩ <;>
    norm_num [calculate_area, specSortedArea, trapzPairs, sortOrd, insertOrd, c5List]

/-- Claim C5 amended: the code integrates the series in the order it holds
the samples, with no sort of the (frequency, value) pairs; when the series
is already in ascending frequency order this agrees with the sorted
trapezoidal integral of the specification. -/
theorem C5_amended (l : List (ℚ × ℚ)) (h : l.Chain' (fun p q => p.1 ≤ q.1)) :
    calculate_area l = specSortedArea l := by
  have hs : sortOrd (fun a b => decide (a.1 ≤ b.1)) l = l :=
    sortOrd_eq_self _ l (h.imp (fun _ _ hpq => decide_eq_true hpq))
  rw [specSortedArea, hs, calculate_area]
  rcases l with _ | ⟨p, _ | ⟨q, rest⟩⟩
  · simp [trapzPairs]
  · simp [trapzPairs]
  · rw [if_neg (by simp)]

/-- Witness for C5_amended at the triangular series of the specification. -/
theorem C5_amended_witness :
    List.Chain' (fun p q : ℚ × ℚ => p.1 ≤ q.1) [(0, 0), (1, 2), (2, 0)] ∧
    calculate_area [((0 : ℚ), (0 : ℚ)), (1, 2), (2, 0)] =
      specSortedArea [(0, 0), (1, 2), (2, 0)] :=
  ⟨by norm_num, C5_amended _ (by norm_num)⟩

theorem getD_mem_of_lt (l : List α) (i : ℕ) (d : α) (h : i < l.length) : l.getD i d ∈ l := by
  rw [List.getD_eq_getElem l d h]
  exact List.getElem_mem h

/-- A constant series has no strict interior local maximum in find_peaks. -/
theorem peakIndices_const (l : List (ℚ × ℚ)) (c : ℚ) (hc : ∀ p ∈ l, p.2 = c) :
    peakIndices l = [] := by
  rw [peakIndices, List.filter_eq_nil_iff]
  intro i hi
  simp only [Bool.and_eq_true, decide_eq_true_eq]
  rintro ⟨⟨⟨h1, h2⟩, h3⟩, -⟩
  have hilt : i < l.length := lt_of_le_of_lt (Nat.le_succ i) h2
  have e1 : (l.getD i (0, 0)).2 = c := hc _ (getD_mem_of_lt l i (0, 0) hilt)
  have e2 : (l.getD (i - 1) (0, 0)).2 = c :=
    hc _ (getD_mem_of_lt l (i - 1) (0, 0) (lt_of_le_of_lt (Nat.sub_le i 1) hilt))
  rw [e1, e2] at h3
  exact lt_irrefl c h3

/-- find_peaks returns no peaks at all on a constant series. -/
theorem find_peaks_const (l : List (ℚ × ℚ)) (c : ℚ) (hc : ∀ p ∈ l, p.2 = c) :
    find_peaks l 3 = [] := by
  rw [find_peaks]
  by_cases hl : l = []
  · rw [if_pos hl]
  · rw [if_neg hl, peakIndices_const l c hc]
    rfl

/-! ## Claim C6 counterexample -/

/-- Claim C6 counterexample: on the constant length-3 series (1,5),(2,5),
(3,5), Pch_TO_Database.find_peaks returns zero candidate points, not 3:
it has no global-maximum fallback. -/
theorem C6_counterexample :
    find_peaks c6FlatList 3 = [] ∧ 3 ≤ c6FlatList.length ∧
    (find_peaks c6FlatList 3).length ≠ 3 := by
  have h : find_peaks c6FlatList 3 = [] := by
    apply find_peaks_const c6FlatList 5
    intro p hp
    simp only [c6FlatList, List.mem_cons, List.not_mem_nil, or_false] at hp
    rcases hp with h | h | h <;> rw [h]
  refine ⟨h, by rw [c6FlatList]; norm_num, ?_⟩
  rw [h]
  norm_num

/-! ## Lemmas for the nastran_float rewrite passes -/

theorem spanDigits_append (t : List Char) : (spanDigits t).1 ++ (spanDigits t).2 = t := by
  induction t with
  | nil => rfl
  | cons c cs ih =>
    rw [spanDigits]
    by_cases h : c.isDigit
    · rw [if_pos h]
      show c :: ((spanDigits cs).1 ++ (spanDigits cs).2) = c :: cs
      rw [ih]
    · rw [if_neg h]
      rfl

theorem spanDigits_digits (t : List Char) : ∀ c ∈ (spanDigits t).1, c.isDigit = true := by
  induction t with
  | nil => intro c hc; cases hc
  | cons c cs ih =>
    rw [spanDigits]
    by_cases h : c.isDigit
    · rw [if_pos h]
      intro x hx
      rcases List.mem_cons.mp hx with hx | hx
      · rw [hx]; exact h
      · exact ih x hx
    · rw [if_neg h]
      intro x hx
      cases hx

theorem nastranSub1_eq_aux :
    ∀ (n : ℕ) (l : List Char), l.length ≤ n → noCompactSign l → nastranSub1 l = l := by
  intro n
  induction n with
  | zero =>
    intro l hl _
    rw [List.length_eq_zero.mp (Nat.le_zero.mp hl)]
    rfl
  | succ n ih =>
    intro l hlen hch
    rcases l with _ | ⟨a, _ | ⟨b, _ | ⟨s, _ | ⟨d, rest⟩⟩⟩⟩
    · rfl
    · simp [nastranSub1]
    · simp [nastranSub1]
    · simp [nastranSub1]
    · simp only [nastranSub1]
      have hcond : ¬(a.isDigit && (b = '.') && isSignChar s && d.isDigit) = true := by
        intro hc
        simp only [Bool.and_eq_true, decide_eq_true_eq] at hc
        obtain ⟨⟨⟨_, hbdot⟩, hsgn⟩, _⟩ := hc
        exact ((List.chain'_cons.mp (List.chain'_cons.mp hch).2).1 hsgn).2 hbdot
      rw [if_neg hcond, ih (b :: s :: d :: rest) (by simpa using Nat.le_of_succ_le_succ hlen)
          hch.tail]

theorem nastranSub1_eq (l : List Char) (h : noCompactSign l) : nastranSub1 l = l :=
  nastranSub1_eq_aux l.length l le_rfl h

theorem nastranSub3_eq_aux :
    ∀ (n : ℕ) (l : List Char), l.length ≤ n → noCompactSign l → nastranSub3 l = l := by
  intro n
  induction n with
  | zero =>
    intro l hl _
    rw [List.length_eq_zero.mp (Nat.le_zero.mp hl)]
    rfl
  | succ n ih =>
    intro l hlen hch
    rcases l with _ | ⟨a, _ | ⟨s, _ | ⟨d, rest⟩⟩⟩
    · rfl
    · simp [nastranSub3]
    · simp [nastranSub3]
    · simp only [nastranSub3]
      have hcond : ¬(a.isDigit && isSignChar s && d.isDigit) = true := by
        intro hc
        simp only [Bool.and_eq_true] at hc
        obtain ⟨⟨ha, hsgn⟩, _⟩ := hc
        have := ((List.chain'_cons.mp hch).1 hsgn).1
        rw [ha] at this
        cases this
      rw [if_neg hcond, ih (s :: d :: rest) (by simpa using Nat.le_of_succ_le_succ hlen)
          hch.tail]

theorem nastranSub3_eq (l : List Char) (h : noCompactSign l) : nastranSub3 l = l :=
  nastranSub3_eq_aux l.length l le_rfl h

theorem nastranSub2_eq :
    ∀ (fuel : ℕ) (l : List Char), noCompactSign l → nastranSub2 fuel l = l := by
  intro fuel
  induction fuel with
  | zero => intro l _; rfl
  | succ fuel ih =>
    intro l hch
    rcases l with _ | ⟨a, rest⟩
    · rfl
    simp only [nastranSub2]
    by_cases h1 : (a.isDigit && headIs '.' rest) = true
    · rw [if_pos h1]
      have h1' := h1
      simp only [Bool.and_eq_true] at h1'
      obtain ⟨-, hdot⟩ := h1'
      rcases rest with _ | ⟨r0, tail⟩
      · cases hdot
      have hr0 : r0 = '.' := by simpa [headIs] using hdot
      subst hr0
      rcases hsp : spanDigits tail with ⟨ds, rest2⟩
      have htl : noCompactSign ('.' :: tail) := hch.tail
      rcases ds with _ | ⟨d, ds'⟩
      · simp only [List.tail_cons, hsp]
        rw [ih _ htl]
      rcases rest2 with _ | ⟨s, rest2'⟩
      · simp only [List.tail_cons, hsp]
        rw [ih _ htl]
      rcases rest2' with _ | ⟨e, rest3⟩
      · simp only [List.tail_cons, hsp]
        rw [ih _ htl]
      simp only [List.tail_cons, hsp]
      by_cases hse : (isSignChar s && e.isDigit) = true
      · exfalso
        have hse' := hse
        simp only [Bool.and_eq_true] at hse'
        obtain ⟨hsgn, -⟩ := hse'
        have htail : (d :: ds') ++ s :: e :: rest3 = tail := by
          have := spanDigits_append tail
          rw [hsp] at this
          exact this
        have hchtail : (( d :: ds') ++ s :: e :: rest3).Chain'
            (fun a b => isSignChar b = true → a.isDigit = false ∧ a ≠ '.') := by
          rw [htail]
          exact hch.tail.tail
        obtain ⟨-, -, hlast⟩ := List.chain'_append.mp hchtail
        have hne : (d :: ds') ≠ [] := by simp
        have hl : (d :: ds').getLast? = some ((d :: ds').getLast hne) :=
          List.getLast?_eq_getLast _ hne
        have hp := hlast ((d :: ds').getLast hne) (by rw [Option.mem_def, hl]) s
          (by rw [Option.mem_def]; rfl)
        have hdig : ((d :: ds').getLast hne).isDigit = true := by
          apply spanDigits_digits tail
          have : (d :: ds') = (spanDigits tail).1 := by rw [hsp]
          rw [← this]
          exact List.getLast_mem hne
        have := (hp hsgn).1
        rw [hdig] at this
        cases this
      · rw [if_neg hse]
        rw [ih _ htl]
    · rw [if_neg h1]
      have htl2 : noCompactSign rest := hch.tail
      rw [ih _ htl2]

/-- The full nastran_float rewrite chain fixes any token in which no sign
follows a digit or a dot. -/
theorem nastranTransform_eq (s : List Char) (h : noCompactSign (trimChars s)) :
    nastranTransform s = trimChars s := by
  rw [nastranTransform, nastranSub1_eq _ h, nastranSub2_eq _ _ h, nastranSub3_eq _ h]

theorem powTen_8 : powTen 8 = 100000000 := by
  rw [powTen, if_pos (by norm_num), show Int.toNat 8 = 8 from by decide]
  norm_num

theorem powTen_neg3 : powTen (-3) = 1/1000 := by
  rw [powTen, if_neg (by norm_num), show Int.toNat (-(-3 : ℤ)) = 3 from by decide]
  norm_num

theorem c3_pass_1ma :
    ¬ noCompactSign (trimChars ("1-a".toList)) ∧
      nastranTransform ("1-a".toList) = trimChars ("1-a".toList) := by
  constructor
  · intro hch
    rw [show trimChars ("1-a".toList) = ['1', '-', 'a'] from by decide, noCompactSign,
      List.chain'_cons] at hch
    exact absurd ((hch.1 (by decide)).1) (by decide)
  · decide

theorem c3_pass_12m :
    ¬ noCompactSign (trimChars ("1.2-".toList)) ∧
      nastranTransform ("1.2-".toList) = trimChars ("1.2-".toList) := by
  constructor
  · intro hch
    rw [show trimChars ("1.2-".toList) = ['1', '.', '2', '-'] from by decide, noCompactSign,
      List.chain'_cons, List.chain'_cons, List.chain'_cons] at hch
    exact absurd ((hch.2.2.1 (by decide)).1) (by decide)
  · decide

/-! ## Claim C3 -/

/-- Claim C3 counterexample: the token 5E1-2 contains the letter E, yet
nastran_float does not pass it through unchanged: the third rewrite turns
it into 5E1E-2, which then fails to parse. -/
theorem C3_counterexample :
    'E' ∈ ("5E1-2".toList) ∧
    nastranTransform ("5E1-2".toList) = ("5E1E-2".toList) ∧
    nastranTransform ("5E1-2".toList) ≠ ("5E1-2".toList) ∧
    nastran_float ("5E1-2".toList) = none := by
  refine ⟨by decide, by decide, by decide, ?_⟩
  rw [nastran_float, show nastranTransform ("5E1-2".toList) = "5E1E-2".toList from by decide,
    parseFloat?, show parseFloatRep? ("5E1E-2".toList) = none from by decide]
  rfl

/-- Claim C3 amended: the compact solver forms map to their standard values
(1.+8 to 1.0e8 and 5.5-3 to 5.5e-3), and a standard token such as 1.0E+8 is
parsed as ordinary scientific notation; the pass-through guarantee is not
containing E or e, but a sign never directly following a digit or a dot:
that condition is sufficient for passing through unchanged (and holds of all
standard scientific notation), though not necessary — every rewrite also
needs a digit after the sign, so 1-a and 1.2- violate the condition yet
still pass through unchanged. -/
theorem C3_amended :
    nastran_float ("1.+8".toList) = some 100000000 ∧
    nastran_float ("5.5-3".toList) = some (11/2000) ∧
    nastran_float ("1.0E+8".toList) = some 100000000 ∧
    (¬ noCompactSign (trimChars ("1-a".toList)) ∧
      nastranTransform ("1-a".toList) = trimChars ("1-a".toList)) ∧
    (¬ noCompactSign (trimChars ("1.2-".toList)) ∧
      nastranTransform ("1.2-".toList) = trimChars ("1.2-".toList)) ∧
    (∀ s : List Char, noCompactSign (trimChars s) → nastranTransform s = trimChars s) := by
  refine ⟨?_, ?_, ?_, c3_pass_1ma, c3_pass_12m, fun s h => nastranTransform_eq s h⟩
  · rw [nastran_float, show nastranTransform ("1.+8".toList) = "1.E+8".toList from by decide,
      parseFloat?, show parseFloatRep? ("1.E+8".toList) = some ⟨false, 1, 0, 0, 8⟩ from by decide]
    norm_num [repVal, pow10, powTen_8]
  · rw [nastran_float, show nastranTransform ("5.5-3".toList) = "5.5E-3".toList from by decide,
      parseFloat?, show parseFloatRep? ("5.5E-3".toList) = some ⟨false, 5, 5, 1, -3⟩ from by decide]
    norm_num [repVal, pow10, powTen_neg3]
  · rw [nastran_float, show nastranTransform ("1.0E+8".toList) = "1.0E+8".toList from by decide,
      parseFloat?, show parseFloatRep? ("1.0E+8".toList) = some ⟨false, 1, 0, 1, 8⟩ from by decide]
    norm_num [repVal, pow10, powTen_8]

/-- Witness for the universal conjunct of C3_amended at the standard token
1.0E+8. -/
theorem C3_amended_witness :
    noCompactSign (trimChars ("1.0E+8".toList)) ∧
    nastranTransform ("1.0E+8".toList) = trimChars ("1.0E+8".toList) := by
  have hch : noCompactSign (trimChars ("1.0E+8".toList)) := by
    rw [show trimChars ("1.0E+8".toList) = ['1', '.', '0', 'E', '+', '8'] from by decide,
      noCompactSign]
    simp only [List.chain'_cons, List.chain'_singleton, and_true]
    refine ⟨?_, ?_, ?_, ?_, ?_⟩ <;> decide
  exact ⟨hch, C3_amended.2.2.2.2.2 _ hch⟩

/-! ## Association list and parser-step helper lemmas -/

theorem lookup_setKey [DecidableEq κ] (k : κ) (v : ν) (d : List (κ × ν)) :
    lookupKey k (setKey k v d) = some v := by
  induction d with
  | nil => simp [setKey, lookupKey]
  | cons p rest ih =>
    rcases p with ⟨k', v'⟩
    rw [setKey]
    by_cases h : k' = k
    · rw [if_pos h, lookupKey, if_pos rfl]
    · rw [if_neg h, lookupKey, if_neg h, ih]

theorem lookup_appendAt [DecidableEq κ] (k : κ) (x : α) (d : List (κ × List α)) :
    lookupKey k (appendAt k x d) = (lookupKey k d).map (fun vs => vs ++ [x]) := by
  induction d with
  | nil => simp [appendAt, lookupKey]
  | cons p rest ih =>
    rcases p with ⟨k', vs⟩
    rw [appendAt]
    by_cases h : k' = k
    · rw [if_pos h, lookupKey, if_pos h, lookupKey, if_pos h]
      rfl
    · rw [if_neg h, lookupKey, if_neg h, lookupKey, if_neg h, ih]

theorem runPch_cons (s s' : PchState) (l : List Char) (ls : List (List Char))
    (h : pchStep s l = some s') : runPch s (l :: ls) = runPch s' ls := by
  rw [runPch, h]

theorem process_cons (s s' : CsvState) (l : List Char) (ls : List (List Char))
    (h : csvStep s l = some s') :
    process_data_blocks s (l :: ls) = process_data_blocks s' ls := by
  rw [process_data_blocks, h]

theorem startsWith_dollar_not_blank (line : List Char)
    (h : startsWith dollarPfx line = true) : isBlank line = false := by
  rcases line with _ | ⟨c, rest⟩
  · cases h
  · have hc : c = '$' := by
      have h2 := h
      rw [startsWith, dollarPfx] at h2
      simp only [show ("$".toList) = ['$'] from rfl, List.isPrefixOf, Bool.and_true] at h2
      exact (beq_iff_eq.mp h2).symm
    subst hc
    simp [isBlank, List.all_cons]

theorem isBlank_not_prefix (line p0 : List Char) (ps : List Char)
    (h : isBlank line = true) (hp0 : p0 = '$' :: ps) : startsWith p0 line = false := by
  rcases line with _ | ⟨c, rest⟩
  · rw [hp0, startsWith]
    rfl
  · rw [isBlank, List.all_cons, Bool.and_eq_true] at h
    rw [hp0, startsWith]
    simp only [List.isPrefixOf, Bool.and_eq_false_iff]
    left
    rw [beq_eq_false_iff_ne]
    intro hc
    rw [← hc] at h
    cases h.1

/-! ## Claim C9: the missing-channel policy of the table assembler -/

/-- Claim C9: when the assembler finds no parsed channel for a (response
kind, node, DOF) combination, acceleration rows on rotational DOFs R1 to R3
get the value 0 in the area cell and all six frequency and PSD cells, and
every other missing combination (translational acceleration and every
displacement DOF) gets the explicit missing marker (NaN, modelled none),
never zero. -/
theorem C9_missing_policy :
    ∀ (dd : List (List Char × List ℚ)) (axis : List ℚ) (node : List Char),
      (∀ dof, dof ∈ [("R1".toList), "R2".toList, "R3".toList] →
        lookupKey (acceHeaderOf node dof) dd = none →
        acceDofCells dd axis node dof =
          (dof ++ "_Area".toList, some 0) :: constPeakCells dof (some 0)) ∧
      (∀ dof, dof ∈ [("T1".toList), "T2".toList, "T3".toList] →
        lookupKey (acceHeaderOf node dof) dd = none →
        acceDofCells dd axis node dof =
          (dof ++ "_Area".toList, none) :: constPeakCells dof none) ∧
      (∀ dof, dof ∈ dofTypes →
        lookupKey (dispHeaderOf node dof) dd = none →
        dispDofCells dd axis node dof =
          (dof ++ "_Area".toList, none) :: constPeakCells dof none) := by
  refine fun dd axis node => ⟨?_, ?_, ?_⟩
  · intro dof hdof hnone
    simp only [List.mem_cons, List.not_mem_nil, or_false] at hdof
    rw [acceDofCells, hnone]
    rw [if_pos hdof]
  · intro dof hdof hnone
    simp only [List.mem_cons, List.not_mem_nil, or_false] at hdof
    rw [acceDofCells, hnone]
    rw [if_neg ?_]
    rcases hdof with h | h | h <;> rw [h] <;> rintro (hc | hc | hc) <;> cases hc
  · intro dof _ hnone
    rw [dispDofCells, hnone]

/-- Witness for C9_missing_policy on an empty channel dictionary. -/
theorem C9_missing_policy_witness :
    acceDofCells [] [] ("222".toList) ("R1".toList) =
      (("R1".toList) ++ "_Area".toList, some 0) :: constPeakCells ("R1".toList) (some 0) ∧
    acceDofCells [] [] ("222".toList) ("T1".toList) =
      (("T1".toList) ++ "_Area".toList, none) :: constPeakCells ("T1".toList) none ∧
    dispDofCells [] [] ("222".toList) ("T2".toList) =
      (("T2".toList) ++ "_Area".toList, none) :: constPeakCells ("T2".toList) none :=
  ⟨(C9_missing_policy [] [] ("222".toList)).1 ("R1".toList) (by decide) rfl,
   (C9_missing_policy [] [] ("222".toList)).2.1 ("T1".toList) (by decide) rfl,
   (C9_missing_policy [] [] ("222".toList)).2.2 ("T2".toList) (by decide) rfl⟩

/-! ## Parser step lemmas for claim C2 -/

theorem csvStep_blank (s : CsvState) (line : List Char) (h : isBlank line = true) :
    csvStep s line = some { s with currentHeader := none } := by
  have ha : startsWith accePfx line = false :=
    isBlank_not_prefix line accePfx ("ACCE".toList) h (by decide)
  have hb : startsWith dispPfx line = false :=
    isBlank_not_prefix line dispPfx ("DISP".toList) h (by decide)
  rw [csvStep, if_neg (by simp [ha]), if_neg (by simp [hb]), if_neg (by simp [h]), if_pos h]

theorem csvStep_dollar_keeps (s : CsvState) (line hd : List Char)
    (h : s.currentHeader = some hd) (h0 : startsWith dollarPfx line = true)
    (ha : startsWith accePfx line = false) (hb : startsWith dispPfx line = false) :
    (csvStep s line).map CsvState.currentHeader = some (some hd) := by
  have hnb : isBlank line = false := startsWith_dollar_not_blank line h0
  rw [csvStep, if_neg (by simp [ha]), if_neg (by simp [hb]),
    if_pos ⟨hnb, by rw [h]; rfl⟩]
  by_cases hlen : 4 ≤ (words line).length
  · rw [if_pos hlen]
    cases hv : parseFloat? ((words line).getD 2 []) with
    | none => simp [h]
    | some v => simp [h]
  · rw [if_neg hlen, Option.map_some', h]

theorem pchStep_dollar (s : PchState) (line : List Char)
    (h0 : startsWith dollarPfx line = true)
    (ha : startsWith accePfx line = false) (hb : startsWith dispPfx line = false) :
    pchStep s line = some { flushPch s with currentType := none, currentNode := none, currentDof := none, currentData := [] } := by
  rw [pchStep, if_neg (by simp [ha]), if_neg (by simp [hb]), if_pos h0]

theorem pchStep_blank (s : PchState) (line : List Char) (h : isBlank line = true) :
    pchStep s line = some s := by
  have ha : startsWith accePfx line = false :=
    isBlank_not_prefix line accePfx ("ACCE".toList) h (by decide)
  have hb : startsWith dispPfx line = false :=
    isBlank_not_prefix line dispPfx ("DISP".toList) h (by decide)
  have hd : startsWith dollarPfx line = false :=
    isBlank_not_prefix line dollarPfx ([] : List Char) h (by decide)
  rw [pchStep, if_neg (by simp [ha]), if_neg (by simp [hb]), if_neg (by simp [hd]),
    if_neg (by simp [h])]

theorem flushPch_lookup (s : PchState) (n : ℤ) (d : List Char)
    (ht : s.currentType = some DType.acce) (hn : s.currentNode = some n) (hn0 : n ≠ 0)
    (hd : s.currentDof = some d) (hdata : s.currentData ≠ []) :
    lookupKey (n, d) (flushPch s).acce = some s.currentData := by
  simp only [flushPch, ht, hn, hd]
  rw [if_pos ⟨hn0, hdata⟩]
  exact lookup_setKey _ _ _

theorem startsWith_trans_dollar (p ps line : List Char)
    (hp : p = '$' :: ps) (h : startsWith p line = true) :
    startsWith dollarPfx line = true := by
  rcases line with _ | ⟨c, rest⟩
  · rw [hp] at h
    cases h
  · rw [hp, startsWith, List.isPrefixOf, Bool.and_eq_true] at h
    rw [startsWith, dollarPfx]
    simp only [show ("$".toList) = ['$'] from rfl, List.isPrefixOf, Bool.and_true]
    exact h.1

theorem csvStep_close_iff (s : CsvState) (line hd : List Char)
    (hhd : s.currentHeader = some hd) :
    ((csvStep s line).map CsvState.currentHeader = some none ↔ isBlank line = true) := by
  rw [csvStep]
  by_cases ha : startsWith accePfx line = true
  · rw [if_pos ha]
    have hnb : isBlank line = false :=
      startsWith_dollar_not_blank line
        (startsWith_trans_dollar accePfx ("ACCE".toList) line (by decide) ha)
    rw [hnb]
    simp only [Bool.false_eq_true, iff_false]
    rw [csvHeaderStep]
    by_cases hlen : 5 ≤ (words line).length
    · rw [if_pos hlen]
      cases hpi : parseInt? ((words line).getD 3 []) with
      | none => simp
      | some tid => simp
    · rw [if_neg hlen]
      simp [hhd]
  · rw [if_neg ha]
    by_cases hb : startsWith dispPfx line = true
    · rw [if_pos hb]
      have hnb : isBlank line = false :=
        startsWith_dollar_not_blank line
          (startsWith_trans_dollar dispPfx ("DISP".toList) line (by decide) hb)
      rw [hnb]
      simp only [Bool.false_eq_true, iff_false]
      rw [csvHeaderStep]
      by_cases hlen : 5 ≤ (words line).length
      · rw [if_pos hlen]
        cases hpi : parseInt? ((words line).getD 3 []) with
        | none => simp
        | some tid => simp
      · rw [if_neg hlen]
        simp [hhd]
    · rw [if_neg hb]
      by_cases hbl : isBlank line = true
      · rw [if_neg (by rw [hbl]; rintro ⟨h, -⟩; cases h), if_pos hbl]
        simp [hbl]
      · have hnb : isBlank line = false := by
          cases hq : isBlank line
          · rfl
          · exact absurd hq hbl
        rw [if_pos ⟨hnb, by rw [hhd]; rfl⟩]
        rw [hnb]
        simp only [Bool.false_eq_true, iff_false]
        by_cases hlen : 4 ≤ (words line).length
        · rw [if_pos hlen]
          cases hpf : parseFloat? ((words line).getD 2 []) with
          | some v => simp [hhd]
          | none => simp [hhd]
        · rw [if_neg hlen]
          simp [hhd]

theorem pchHeaderStep_flushes (ty : DType) (s : PchState) (line : List Char) (s' : PchState)
    (h : pchHeaderStep ty s line = some s') :
    s'.acce = (flushPch s).acce ∧ s'.disp = (flushPch s).disp := by
  rw [pchHeaderStep] at h
  by_cases hlen : 5 ≤ (words line).length
  · rw [if_pos hlen] at h
    cases h1 : parseInt? ((words line).getD 2 []) with
    | none =>
      cases h2 : parseInt? ((words line).getD 3 []) with
      | none => rw [h1, h2] at h; cases h
      | some dn => rw [h1, h2] at h; cases h
    | some nd =>
      cases h2 : parseInt? ((words line).getD 3 []) with
      | none => rw [h1, h2] at h; cases h
      | some dn =>
        rw [h1, h2] at h
        injection h with h
        subst h
        exact ⟨rfl, rfl⟩
  · rw [if_neg hlen] at h
    injection h with h
    subst h
    exact ⟨rfl, rfl⟩

theorem pchStep_nondollar_keeps (s s' : PchState) (line : List Char)
    (hnd : startsWith dollarPfx line = false) (h : pchStep s line = some s') :
    s'.acce = s.acce ∧ s'.disp = s.disp ∧ s'.currentType = s.currentType ∧
      s'.currentNode = s.currentNode ∧ s'.currentDof = s.currentDof := by
  have hna : startsWith accePfx line = false := by
    cases hq : startsWith accePfx line
    · rfl
    · rw [startsWith_trans_dollar accePfx ("ACCE".toList) line (by decide) hq] at hnd
      cases hnd
  have hnb : startsWith dispPfx line = false := by
    cases hq : startsWith dispPfx line
    · rfl
    · rw [startsWith_trans_dollar dispPfx ("DISP".toList) line (by decide) hq] at hnd
      cases hnd
  rw [pchStep, if_neg (by simp [hna]), if_neg (by simp [hnb]), if_neg (by simp [hnd])] at h
  by_cases hc : s.currentType.isSome ∧ isBlank line = false
  · rw [if_pos hc] at h
    by_cases hlen : 3 ≤ (words line).length
    · rw [if_pos hlen] at h
      cases h1 : parseFloat? ((words line).getD 1 []) with
      | none =>
        cases h2 : parseFloat? ((words line).getD 2 []) with
        | none => rw [h1, h2] at h; injection h with h; subst h; exact ⟨rfl, rfl, rfl, rfl, rfl⟩
        | some p => rw [h1, h2] at h; injection h with h; subst h; exact ⟨rfl, rfl, rfl, rfl, rfl⟩
      | some f =>
        cases h2 : parseFloat? ((words line).getD 2 []) with
        | none => rw [h1, h2] at h; injection h with h; subst h; exact ⟨rfl, rfl, rfl, rfl, rfl⟩
        | some p => rw [h1, h2] at h; injection h with h; subst h; exact ⟨rfl, rfl, rfl, rfl, rfl⟩
    · rw [if_neg hlen] at h
      injection h with h
      subst h
      exact ⟨rfl, rfl, rfl, rfl, rfl⟩
  · rw [if_neg hc] at h
    injection h with h
    subst h
    exact ⟨rfl, rfl, rfl, rfl, rfl⟩

theorem pchStep_header_flushes (s s' : PchState) (line : List Char)
    (hor : startsWith accePfx line = true ∨ startsWith dispPfx line = true)
    (h : pchStep s line = some s') :
    s'.acce = (flushPch s).acce ∧ s'.disp = (flushPch s).disp := by
  by_cases ha : startsWith accePfx line = true
  · rw [pchStep, if_pos ha] at h
    exact pchHeaderStep_flushes DType.acce s line s' h
  · rcases hor with ha' | hb
    · exact absurd ha' ha
    · rw [pchStep, if_neg ha, if_pos hb] at h
      exact pchHeaderStep_flushes DType.disp s line s' h

/-! ## Claim C2 -/

/-- Claim C2 counterexample: in Pch_TO_CSV2.process_data_blocks a line
starting with a dollar marker other than a channel header does not close the
open block; on this input the line $EOF 1 2.5 3 is even consumed as a data
row (value 2.5) and the following row still lands in the same series, so
the series ends as 0.5, 2.5, 1.5 instead of the 0.5 the claim implies. -/
theorem C2_counterexample :
    (runCsv c2Lines).map (fun s => lookupKey ("ACCE-7-T1".toList) s.dataDict) =
      some (some [1/2, 5/2, 3/2]) ∧
    ([1/2, 5/2, 3/2] : List ℚ) ≠ [1/2] := by
  constructor
  · have e1 : csvStep initCsv ("$ACCE 0 7 3 X".toList) =
        some ⟨[("ACCE-7-T1".toList, [])], ["7".toList], some ("ACCE-7-T1".toList)⟩ := by
      decide
    have e2 : csvStep ⟨[("ACCE-7-T1".toList, [])], ["7".toList], some ("ACCE-7-T1".toList)⟩
        ("1 1.0 0.5 2".toList) =
        some ⟨[("ACCE-7-T1".toList, [1/2])], ["7".toList], some ("ACCE-7-T1".toList)⟩ := by
      rw [csvStep, if_neg (by decide), if_neg (by decide), if_pos ⟨by decide, by rfl⟩]
      simp only [show words ("1 1.0 0.5 2".toList) =
        [("1".toList), "1.0".toList, "0.5".toList, "2".toList] from by decide]
      rw [if_pos (by decide)]
      simp only [List.getD_cons_succ, List.getD_cons_zero, parseFloat_0p5]
      simp [appendAt]
    have e3 : csvStep ⟨[("ACCE-7-T1".toList, [1/2])], ["7".toList], some ("ACCE-7-T1".toList)⟩
        ("$EOF 1 2.5 3".toList) =
        some ⟨[("ACCE-7-T1".toList, [1/2, 5/2])], ["7".toList], some ("ACCE-7-T1".toList)⟩ := by
      rw [csvStep, if_neg (by decide), if_neg (by decide), if_pos ⟨by decide, by rfl⟩]
      simp only [show words ("$EOF 1 2.5 3".toList) =
        [("$EOF".toList), "1".toList, "2.5".toList, "3".toList] from by decide]
      rw [if_pos (by decide)]
      simp only [List.getD_cons_succ, List.getD_cons_zero, parseFloat_2p5]
      simp [appendAt]
    have e4 : csvStep
        ⟨[("ACCE-7-T1".toList, [1/2, 5/2])], ["7".toList], some ("ACCE-7-T1".toList)⟩
        ("1 2.0 1.5 2".toList) =
        some ⟨[("ACCE-7-T1".toList, [1/2, 5/2, 3/2])], ["7".toList],
          some ("ACCE-7-T1".toList)⟩ := by
      rw [csvStep, if_neg (by decide), if_neg (by decide), if_pos ⟨by decide, by rfl⟩]
      simp only [show words ("1 2.0 1.5 2".toList) =
        [("1".toList), "2.0".toList, "1.5".toList, "2".toList] from by decide]
      rw [if_pos (by decide)]
      simp only [List.getD_cons_succ, List.getD_cons_zero, parseFloat_1p5]
      simp [appendAt]
    rw [runCsv, c2Lines, process_cons _ _ _ _ e1, process_cons _ _ _ _ e2,
      process_cons _ _ _ _ e3, process_cons _ _ _ _ e4, process_data_blocks]
    simp [lookupKey]
  · intro h
    have := congrArg List.length h
    simp at this

/-- Claim C2 amended: Pch_TO_CSV2.process_data_blocks closes an open block
exactly on blank lines — a blank line resets the collection header, a
dollar-prefixed non-channel line leaves the block open (and can be consumed
as a data row), and no other line ever resets the header to idle;
Pch_TO_Database's parse_pch_file saves and clears the collecting block
exactly on dollar-prefixed lines — a non-channel dollar line flushes and
returns to idle, a channel header line first flushes the open block, a blank
line leaves its state unchanged, and a non-dollar line never flushes or
changes which block is collecting; a block still open at end of input is
flushed once by parse_pch_file provided its node id is nonzero and it holds
at least one data row. -/
theorem C2_amended :
    (∀ (s : CsvState) (line : List Char), isBlank line = true →
      csvStep s line = some { s with currentHeader := none }) ∧
    (∀ (s : CsvState) (line hd : List Char), s.currentHeader = some hd →
      startsWith dollarPfx line = true → startsWith accePfx line = false →
      startsWith dispPfx line = false →
      (csvStep s line).map CsvState.currentHeader = some (some hd)) ∧
    (∀ (s : PchState) (line : List Char), startsWith dollarPfx line = true →
      startsWith accePfx line = false → startsWith dispPfx line = false →
      pchStep s line = some { flushPch s with currentType := none, currentNode := none, currentDof := none, currentData := [] }) ∧
    (∀ (s : PchState) (line : List Char), isBlank line = true → pchStep s line = some s) ∧
    (∀ (lines : List (List Char)) (s : PchState) (n : ℤ) (d : List Char),
      runPch initPch lines = some s → s.currentType = some DType.acce →
      s.currentNode = some n → n ≠ 0 → s.currentDof = some d → s.currentData ≠ [] →
      (parse_pch_file lines).map (fun p => lookupKey (n, d) p.1) =
        some (some s.currentData)) ∧
    (∀ (s : CsvState) (line hd : List Char), s.currentHeader = some hd →
      ((csvStep s line).map CsvState.currentHeader = some none ↔ isBlank line = true)) ∧
    (∀ (s s' : PchState) (line : List Char), startsWith dollarPfx line = false →
      pchStep s line = some s' → s'.acce = s.acce ∧ s'.disp = s.disp ∧
        s'.currentType = s.currentType ∧ s'.currentNode = s.currentNode ∧
        s'.currentDof = s.currentDof) ∧
    (∀ (s s' : PchState) (line : List Char),
      startsWith accePfx line = true ∨ startsWith dispPfx line = true →
      pchStep s line = some s' →
      s'.acce = (flushPch s).acce ∧ s'.disp = (flushPch s).disp) := by
  refine ⟨csvStep_blank, csvStep_dollar_keeps, pchStep_dollar, pchStep_blank, ?_,
    csvStep_close_iff, pchStep_nondollar_keeps, pchStep_header_flushes⟩
  intro lines s n d hrun ht hn hn0 hd hdata
  simp only [parse_pch_file, hrun, Option.map_some']
  rw [flushPch_lookup s n d ht hn hn0 hd hdata]

/-! ## Concrete parse_pch_file runs for claims C2 and C4 -/

theorem pchStepHeaderFresh :
    pchStep initPch ("$ACCE 0 5 3 X".toList) =
      some ⟨[], [], some DType.acce, some 5, some ("T1".toList), []⟩ := by
  decide

theorem pchStepData1 :
    pchStep ⟨[], [], some DType.acce, some 5, some ("T1".toList), []⟩ ("1 1.0 1.0 2".toList) =
      some ⟨[], [], some DType.acce, some 5, some ("T1".toList), [(1, 1)]⟩ := by
  rw [pchStep, if_neg (by decide), if_neg (by decide), if_neg (by decide),
    if_pos (by constructor <;> decide)]
  simp only [show words ("1 1.0 1.0 2".toList) =
    [("1".toList), "1.0".toList, "1.0".toList, "2".toList] from by decide]
  rw [if_pos (by decide)]
  simp only [List.getD_cons_succ, List.getD_cons_zero, parseFloat_1p0]
  simp

theorem pchStepHeader2 :
    pchStep ⟨[], [], some DType.acce, some 5, some ("T1".toList), [(1, 1)]⟩
      ("$ACCE 0 5 3 X".toList) =
      some ⟨[(((5 : ℤ), "T1".toList), [(1, 1)])], [], some DType.acce, some 5,
        some ("T1".toList), []⟩ := by
  rw [pchStep, if_pos (by decide)]
  simp only [pchHeaderStep]
  simp only [show words ("$ACCE 0 5 3 X".toList) =
    [("$ACCE".toList), "0".toList, "5".toList, "3".toList, "X".toList] from by decide]
  rw [if_pos (by decide)]
  simp only [List.getD_cons_succ, List.getD_cons_zero,
    show parseInt? ("5".toList) = some 5 from by decide,
    show parseInt? ("3".toList) = some 3 from by decide]
  simp only [flushPch]
  rw [if_pos ⟨by decide, by simp⟩]
  simp [setKey, show dofNameDb 3 = ("T1".toList) from by decide]

theorem pchStepData2 :
    pchStep ⟨[(((5 : ℤ), "T1".toList), [(1, 1)])], [], some DType.acce, some 5,
      some ("T1".toList), []⟩ ("1 2.0 2.0 2".toList) =
      some ⟨[(((5 : ℤ), "T1".toList), [(1, 1)])], [], some DType.acce, some 5,
        some ("T1".toList), [(2, 2)]⟩ := by
  rw [pchStep, if_neg (by decide), if_neg (by decide), if_neg (by decide),
    if_pos (by constructor <;> decide)]
  simp only [show words ("1 2.0 2.0 2".toList) =
    [("1".toList), "2.0".toList, "2.0".toList, "2".toList] from by decide]
  rw [if_pos (by decide)]
  simp only [List.getD_cons_succ, List.getD_cons_zero, parseFloat_2p0]
  simp

/-! ## Claim C4 -/

/-- Claim C4 counterexample: two blocks with the same key (node 5, DOF T1)
in parse_pch_file: the final series holds only the later block's row (2,2);
the earlier row (1,1) was replaced, not appended to. -/
theorem C4_counterexample :
    (parse_pch_file c4Lines).map (fun p => lookupKey ((5 : ℤ), "T1".toList) p.1) =
      some (some [(2, 2)]) ∧
    ([((2 : ℚ), (2 : ℚ))] : List (ℚ × ℚ)) ≠ [(1, 1), (2, 2)] := by
  constructor
  · rw [parse_pch_file, c4Lines, runPch_cons _ _ _ _ pchStepHeaderFresh,
      runPch_cons _ _ _ _ pchStepData1, runPch_cons _ _ _ _ pchStepHeader2,
      runPch_cons _ _ _ _ pchStepData2, runPch]
    simp only [Option.map_some']
    simp only [flushPch]
    rw [if_pos ⟨by decide, by simp⟩]
    simp [setKey, lookupKey]
  · intro h
    have := congrArg List.length h
    simp at this

/-- Claim C4 amended: in Pch_TO_CSV2.process_data_blocks a repeated channel
header reuses the existing dict entry (the data dictionary is unchanged by
the duplicate header) and subsequent data rows append to that series; in
Pch_TO_Database.parse_pch_file the per-block save is a dict assignment, so
a later block with the same (node, DOF) key replaces the stored series. -/
theorem C4_amended :
    (∀ (s : CsvState) (line : List Char) (tid : ℤ),
      startsWith accePfx line = true → 5 ≤ (words line).length →
      parseInt? ((words line).getD 3 []) = some tid →
      containsKey (acceHeaderOf ((words line).getD 2 [])
        (determine_translation_id tid)) s.dataDict = true →
      csvStep s line = some ⟨s.dataDict, addNode ((words line).getD 2 []) s.nodeIds,
        some (acceHeaderOf ((words line).getD 2 []) (determine_translation_id tid))⟩) ∧
    (∀ (s : CsvState) (line hd : List Char) (v : ℚ), s.currentHeader = some hd →
      startsWith accePfx line = false → startsWith dispPfx line = false →
      isBlank line = false → 4 ≤ (words line).length →
      parseFloat? ((words line).getD 2 []) = some v →
      (csvStep s line).map (fun s' => lookupKey hd s'.dataDict) =
        some ((lookupKey hd s.dataDict).map (fun vs => vs ++ [v]))) ∧
    (∀ (d : List ((ℤ × List Char) × List (ℚ × ℚ))) (k : ℤ × List Char)
      (rows : List (ℚ × ℚ)), lookupKey k (setKey k rows d) = some rows) := by
  refine ⟨?_, ?_, fun d k rows => lookup_setKey k rows d⟩
  · intro s line tid hacce hlen htid hkey
    rw [csvStep, if_pos hacce]
    simp only [csvHeaderStep]
    rw [if_pos hlen, htid]
    simp only [hkey, if_true]
  · intro s line hd v h ha hb hnb hlen hv
    rw [csvStep, if_neg (by simp [ha]), if_neg (by simp [hb]),
      if_pos ⟨hnb, by rw [h]; rfl⟩]
    rw [if_pos hlen, hv]
    simp only [Option.map_some', h, Option.getD_some]
    rw [lookup_appendAt]

/-- Witness for C4_amended: a duplicate header on a dictionary already
holding the key, a data row appended under an open header, and a concrete
replacing assignment. -/
theorem C4_amended_witness :
    csvStep ⟨[("ACCE-5-T1".toList, [])], ["5".toList], none⟩ ("$ACCE 0 5 3 X".toList) =
      some ⟨[("ACCE-5-T1".toList, [])],
        addNode ((words ("$ACCE 0 5 3 X".toList)).getD 2 []) ["5".toList],
        some (acceHeaderOf ((words ("$ACCE 0 5 3 X".toList)).getD 2 [])
          (determine_translation_id 3))⟩ ∧
    (csvStep ⟨[("H".toList, [])], [], some ("H".toList)⟩ ("1 1.0 0.5 2".toList)).map
        (fun s' => lookupKey ("H".toList) s'.dataDict) =
      some ((lookupKey ("H".toList)
        ([("H".toList, ([] : List ℚ))])).map (fun vs => vs ++ [1/2])) ∧
    lookupKey ((5 : ℤ), "T1".toList)
        (setKey ((5 : ℤ), "T1".toList) [((2 : ℚ), (2 : ℚ))]
          [(((5 : ℤ), "T1".toList), [((1 : ℚ), (1 : ℚ))])]) =
      some [((2 : ℚ), (2 : ℚ))] :=
  ⟨C4_amended.1 ⟨[("ACCE-5-T1".toList, [])], ["5".toList], none⟩ ("$ACCE 0 5 3 X".toList) 3
      (by decide) (by decide)
      (by rw [show (words ("$ACCE 0 5 3 X".toList)).getD 3 [] = ("3".toList) from by decide]
          decide)
      (by decide),
   C4_amended.2.1 ⟨[("H".toList, [])], [], some ("H".toList)⟩ ("1 1.0 0.5 2".toList)
      ("H".toList) (1/2) rfl (by decide) (by decide) (by decide) (by decide)
      (by rw [show (words ("1 1.0 0.5 2".toList)).getD 2 [] = ("0.5".toList) from by decide]
          exact parseFloat_0p5),
   C4_amended.2.2 [(((5 : ℤ), "T1".toList), [((1 : ℚ), (1 : ℚ))])] ((5 : ℤ), "T1".toList)
      [((2 : ℚ), (2 : ℚ))]⟩

/-- Witness for C2_amended: a blank line with an open CSV block, a
non-channel dollar line with an open CSV block, a non-channel dollar line
and a blank line in parse_pch_file, an end-of-input flush, the
close-iff-blank instance at a blank line, a data line that preserves the
stored maps and the collecting block, and a channel header that flushes. -/
theorem C2_amended_witness :
    csvStep ⟨[], [], some ("H".toList)⟩ ("".toList) =
      some { (⟨[], [], some ("H".toList)⟩ : CsvState) with currentHeader := none } ∧
    (csvStep ⟨[], [], some ("H".toList)⟩ ("$EOF 1 2.5 3".toList)).map
      CsvState.currentHeader = some (some ("H".toList)) ∧
    pchStep initPch ("$X".toList) = some { flushPch initPch with currentType := none, currentNode := none, currentDof := none, currentData := [] } ∧
    pchStep ⟨[], [], some DType.acce, some 5, some ("T1".toList), [(1, 1)]⟩ ("".toList) =
      some ⟨[], [], some DType.acce, some 5, some ("T1".toList), [(1, 1)]⟩ ∧
    (parse_pch_file [("$ACCE 0 5 3 X".toList), ("1 1.0 1.0 2".toList)]).map
        (fun p => lookupKey ((5 : ℤ), "T1".toList) p.1) =
      some (some [((1 : ℚ), (1 : ℚ))]) ∧
    ((csvStep ⟨[], [], some ("H".toList)⟩ ("".toList)).map CsvState.currentHeader =
        some none ↔ isBlank ("".toList) = true) ∧
    ((⟨[], [], some DType.acce, some 5, some ("T1".toList),
        [(1, 1)]⟩ : PchState).acce =
      (⟨[], [], some DType.acce, some 5, some ("T1".toList),
        ([] : List (ℚ × ℚ))⟩ : PchState).acce ∧
     (⟨[], [], some DType.acce, some 5, some ("T1".toList),
        [(1, 1)]⟩ : PchState).disp =
      (⟨[], [], some DType.acce, some 5, some ("T1".toList),
        ([] : List (ℚ × ℚ))⟩ : PchState).disp ∧
     (⟨[], [], some DType.acce, some 5, some ("T1".toList),
        [(1, 1)]⟩ : PchState).currentType =
      (⟨[], [], some DType.acce, some 5, some ("T1".toList),
        ([] : List (ℚ × ℚ))⟩ : PchState).currentType ∧
     (⟨[], [], some DType.acce, some 5, some ("T1".toList),
        [(1, 1)]⟩ : PchState).currentNode =
      (⟨[], [], some DType.acce, some 5, some ("T1".toList),
        ([] : List (ℚ × ℚ))⟩ : PchState).currentNode ∧
     (⟨[], [], some DType.acce, some 5, some ("T1".toList),
        [(1, 1)]⟩ : PchState).currentDof =
      (⟨[], [], some DType.acce, some 5, some ("T1".toList),
        ([] : List (ℚ × ℚ))⟩ : PchState).currentDof) ∧
    ((⟨[], [], some DType.acce, some 5, some ("T1".toList),
        ([] : List (ℚ × ℚ))⟩ : PchState).acce = (flushPch initPch).acce ∧
     (⟨[], [], some DType.acce, some 5, some ("T1".toList),
        ([] : List (ℚ × ℚ))⟩ : PchState).disp = (flushPch initPch).disp) := by
  have hrun : runPch initPch [("$ACCE 0 5 3 X".toList), ("1 1.0 1.0 2".toList)] =
      some ⟨[], [], some DType.acce, some 5, some ("T1".toList), [(1, 1)]⟩ := by
    rw [runPch_cons _ _ _ _ pchStepHeaderFresh, runPch_cons _ _ _ _ pchStepData1, runPch]
  refine ⟨C2_amended.1 ⟨[], [], some ("H".toList)⟩ ("".toList) (by decide),
    C2_amended.2.1 ⟨[], [], some ("H".toList)⟩ ("$EOF 1 2.5 3".toList) ("H".toList) rfl
      (by decide) (by decide) (by decide),
    C2_amended.2.2.1 initPch ("$X".toList) (by decide) (by decide) (by decide),
    C2_amended.2.2.2.1 ⟨[], [], some DType.acce, some 5, some ("T1".toList), [(1, 1)]⟩
      ("".toList) (by decide),
    C2_amended.2.2.2.2.1 [("$ACCE 0 5 3 X".toList), ("1 1.0 1.0 2".toList)]
      ⟨[], [], some DType.acce, some 5, some ("T1".toList), [(1, 1)]⟩ 5 ("T1".toList)
      hrun rfl rfl (by decide) rfl (by simp),
    C2_amended.2.2.2.2.2.1 ⟨[], [], some ("H".toList)⟩ ("".toList) ("H".toList) rfl,
    C2_amended.2.2.2.2.2.2.1
      ⟨[], [], some DType.acce, some 5, some ("T1".toList), ([] : List (ℚ × ℚ))⟩
      ⟨[], [], some DType.acce, some 5, some ("T1".toList), [(1, 1)]⟩
      ("1 1.0 1.0 2".toList) (by decide) pchStepData1,
    C2_amended.2.2.2.2.2.2.2 initPch
      ⟨[], [], some DType.acce, some 5, some ("T1".toList), ([] : List (ℚ × ℚ))⟩
      ("$ACCE 0 5 3 X".toList) (Or.inl (by decide)) pchStepHeaderFresh⟩

/-! ## Lemmas for claim C7: the frequency axis -/

theorem nodup_append_one {l : List α} {a : α} (h : l.Nodup) (ha : a ∉ l) :
    (l ++ [a]).Nodup := by
  rw [List.nodup_append]
  exact ⟨h, List.nodup_singleton a, fun b hb hba => ha (List.mem_singleton.mp hba ▸ hb)⟩

theorem freqStep_nodup (s : FreqState) (line : List Char) (h : s.freqs.Nodup) :
    (freqStep s line).freqs.Nodup := by
  rw [freqStep]
  by_cases h1 : (startsWith accePfx line || startsWith dispPfx line) = true
  · rw [if_pos h1]
    exact h
  · rw [if_neg h1]
    by_cases h2 : s.within = true
    · rw [if_pos h2]
      by_cases h3 : isBlank line = true
      · rw [if_pos h3]
        exact h
      · rw [if_neg h3]
        by_cases h4 : 4 ≤ (words line).length
        · rw [if_pos h4]
          split
          · split
            · exact h
            · next h5 => exact nodup_append_one h h5
          · exact h
        · rw [if_neg h4]
          exact h
    · rw [if_neg h2]
      exact h

theorem extract_frequency_nodup_aux :
    ∀ (lines : List (List Char)) (s : FreqState), s.freqs.Nodup →
      (List.foldl freqStep s lines).freqs.Nodup := by
  intro lines
  induction lines with
  | nil => intro s h; exact h
  | cons l ls ih =>
    intro s h
    rw [List.foldl_cons]
    exact ih _ (freqStep_nodup s l h)

theorem extract_frequency_nodup (lines : List (List Char)) :
    (extract_frequency lines).Nodup := by
  rw [extract_frequency]
  exact extract_frequency_nodup_aux lines _ List.nodup_nil

/-! ## Claim C7 -/

/-- Claim C7: the frequency axis is the exact-equality deduplicated,
ascending-sorted list of frequencies observed in the input: it is strictly
increasing with no duplicates, holds exactly the observed values, and on
channels reporting frequencies 1,2,2,3 and 2,3,4 it is exactly 1,2,3,4. -/
theorem C7_frequency_axis :
    (∀ lines : List (List Char), (axisOf lines).Chain' (· < ·)) ∧
    (∀ (lines : List (List Char)) (f : ℚ),
      f ∈ axisOf lines ↔ f ∈ extract_frequency lines) ∧
    axisOf c7Lines = [1, 2, 3, 4] := by
  refine ⟨?_, ?_, ?_⟩
  · intro lines
    have hperm := sortOrd_perm (fun a b : ℚ => decide (a ≤ b)) (extract_frequency lines)
    have hnd : (axisOf lines).Nodup :=
      hperm.nodup_iff.mpr (extract_frequency_nodup lines)
    have hpw : (axisOf lines).Pairwise (fun a b : ℚ => decide (a ≤ b) = true) := by
      rw [axisOf]
      exact sortOrd_pairwise _
        (fun a b => (le_total a b).imp (fun h => decide_eq_true h) (fun h => decide_eq_true h))
        (fun a b c hab hbc =>
          decide_eq_true (le_trans (of_decide_eq_true hab) (of_decide_eq_true hbc)))
        (extract_frequency lines)
    have : (axisOf lines).Pairwise (· < ·) :=
      (hpw.and hnd).imp (fun hab => lt_of_le_of_ne (of_decide_eq_true hab.1) hab.2)
    exact this.chain'
  · intro lines f
    rw [axisOf]
    exact (sortOrd_perm _ _).mem_iff
  · have e1 : freqStep ⟨false, []⟩ ("$ACCE 0 1 3 X".toList) = ⟨true, []⟩ := by decide
    have e2 : freqStep ⟨true, []⟩ ("1 1.0 9.0 2".toList) = ⟨true, [1]⟩ := by
      rw [freqStep, if_neg (by decide), if_pos (by decide), if_neg (by decide)]
      simp only [show words ("1 1.0 9.0 2".toList) =
        [("1".toList), "1.0".toList, "9.0".toList, "2".toList] from by decide]
      rw [if_pos (by decide)]
      simp only [List.getD_cons_succ, List.getD_cons_zero, parseFloat_1p0]
      simp
    have e3 : freqStep ⟨true, [1]⟩ ("1 2.0 9.0 2".toList) = ⟨true, [1, 2]⟩ := by
      rw [freqStep, if_neg (by decide), if_pos (by decide), if_neg (by decide)]
      simp only [show words ("1 2.0 9.0 2".toList) =
        [("1".toList), "2.0".toList, "9.0".toList, "2".toList] from by decide]
      rw [if_pos (by decide)]
      simp only [List.getD_cons_succ, List.getD_cons_zero, parseFloat_2p0]
      rw [if_neg (by norm_num)]
      rfl
    have e4 : freqStep ⟨true, [1, 2]⟩ ("1 2.0 8.0 2".toList) = ⟨true, [1, 2]⟩ := by
      rw [freqStep, if_neg (by decide), if_pos (by decide), if_neg (by decide)]
      simp only [show words ("1 2.0 8.0 2".toList) =
        [("1".toList), "2.0".toList, "8.0".toList, "2".toList] from by decide]
      rw [if_pos (by decide)]
      simp only [List.getD_cons_succ, List.getD_cons_zero, parseFloat_2p0]
      rw [if_pos (by norm_num)]
    have e5 : freqStep ⟨true, [1, 2]⟩ ("1 3.0 9.0 2".toList) = ⟨true, [1, 2, 3]⟩ := by
      rw [freqStep, if_neg (by decide), if_pos (by decide), if_neg (by decide)]
      simp only [show words ("1 3.0 9.0 2".toList) =
        [("1".toList), "3.0".toList, "9.0".toList, "2".toList] from by decide]
      rw [if_pos (by decide)]
      simp only [List.getD_cons_succ, List.getD_cons_zero, parseFloat_3p0]
      rw [if_neg (by norm_num)]
      rfl
    have e6 : freqStep ⟨true, [1, 2, 3]⟩ ("".toList) = ⟨false, [1, 2, 3]⟩ := by
      rw [freqStep, if_neg (by decide), if_pos (by decide), if_pos (by decide)]
    have e7 : freqStep ⟨false, [1, 2, 3]⟩ ("$ACCE 0 2 3 X".toList) = ⟨true, [1, 2, 3]⟩ := by
      rw [freqStep, if_pos (by decide)]
    have e8 : freqStep ⟨true, [1, 2, 3]⟩ ("1 2.0 7.0 2".toList) = ⟨true, [1, 2, 3]⟩ := by
      rw [freqStep, if_neg (by decide), if_pos (by decide), if_neg (by decide)]
      simp only [show words ("1 2.0 7.0 2".toList) =
        [("1".toList), "2.0".toList, "7.0".toList, "2".toList] from by decide]
      rw [if_pos (by decide)]
      simp only [List.getD_cons_succ, List.getD_cons_zero, parseFloat_2p0]
      rw [if_pos (by norm_num)]
    have e9 : freqStep ⟨true, [1, 2, 3]⟩ ("1 3.0 7.0 2".toList) = ⟨true, [1, 2, 3]⟩ := by
      rw [freqStep, if_neg (by decide), if_pos (by decide), if_neg (by decide)]
      simp only [show words ("1 3.0 7.0 2".toList) =
        [("1".toList), "3.0".toList, "7.0".toList, "2".toList] from by decide]
      rw [if_pos (by decide)]
      simp only [List.getD_cons_succ, List.getD_cons_zero, parseFloat_3p0]
      rw [if_pos (by norm_num)]
    have e10 : freqStep ⟨true, [1, 2, 3]⟩ ("1 4.0 7.0 2".toList) = ⟨true, [1, 2, 3, 4]⟩ := by
      rw [freqStep, if_neg (by decide), if_pos (by decide), if_neg (by decide)]
      simp only [show words ("1 4.0 7.0 2".toList) =
        [("1".toList), "4.0".toList, "7.0".toList, "2".toList] from by decide]
      rw [if_pos (by decide)]
      simp only [List.getD_cons_succ, List.getD_cons_zero, parseFloat_4p0]
      rw [if_neg (by norm_num)]
      rfl
    have hex : extract_frequency c7Lines = [1, 2, 3, 4] := by
      rw [extract_frequency, c7Lines]
      simp only [List.foldl_cons, List.foldl_nil]
      rw [e1, e2, e3, e4, e5, e6, e7, e8, e9, e10]
    rw [axisOf, hex, sortOrd_eq_self]
    simp only [List.chain'_cons, List.chain'_singleton, decide_eq_true_eq]
    norm_num

/-! ## Claim C1: the end-to-end area and peak cells -/

theorem trapz_c1 : trapzPairs (List.zip [1, 2, 3] [1/2, 3/2, 1/5]) = 37/20 := by
  norm_num [List.zip, List.zipWith, trapzPairs]

theorem fttlm_c1 :
    find_top_three_local_maxima [1, 2, 3] [1/2, 3/2, 1/5] = [(1, 1/2), (2, 3/2), (3, 1/5)] := by
  norm_num [find_top_three_local_maxima, candIdx, localMaxIndices, smoothList, isLocalMaxIdx,
    argsortAsc, top3Idx, sortOrd, insertOrd, List.range_succ, List.filter_cons, List.filter_nil,
    List.filter_append, List.getD_cons_succ, List.getD_cons_zero]

theorem candIdx_c1 : candIdx [1/2, 3/2, 1/5] = [1] := by
  norm_num [candIdx, localMaxIndices, smoothList, isLocalMaxIdx,
    List.range_succ, List.filter_cons, List.filter_nil, List.filter_append,
    List.getD_cons_succ, List.getD_cons_zero]

theorem c1_run : runCsv c1Lines =
    some ⟨[("ACCE-222-T1".toList, [1/2, 3/2, 1/5])], ["222".toList],
      some ("ACCE-222-T1".toList)⟩ := by
  have e1 : csvStep initCsv ("$ACCE 0 222 3 X".toList) =
      some ⟨[("ACCE-222-T1".toList, [])], ["222".toList], some ("ACCE-222-T1".toList)⟩ := by
    decide
  have e2 : csvStep ⟨[("ACCE-222-T1".toList, [])], ["222".toList],
      some ("ACCE-222-T1".toList)⟩ ("1 1.0 0.5 2".toList) =
      some ⟨[("ACCE-222-T1".toList, [1/2])], ["222".toList], some ("ACCE-222-T1".toList)⟩ := by
    rw [csvStep, if_neg (by decide), if_neg (by decide), if_pos ⟨by decide, by rfl⟩]
    simp only [show words ("1 1.0 0.5 2".toList) =
      [("1".toList), "1.0".toList, "0.5".toList, "2".toList] from by decide]
    rw [if_pos (by decide)]
    simp only [List.getD_cons_succ, List.getD_cons_zero, parseFloat_0p5]
    simp [appendAt]
  have e3 : csvStep ⟨[("ACCE-222-T1".toList, [1/2])], ["222".toList],
      some ("ACCE-222-T1".toList)⟩ ("1 2.0 1.5 2".toList) =
      some ⟨[("ACCE-222-T1".toList, [1/2, 3/2])], ["222".toList],
        some ("ACCE-222-T1".toList)⟩ := by
    rw [csvStep, if_neg (by decide), if_neg (by decide), if_pos ⟨by decide, by rfl⟩]
    simp only [show words ("1 2.0 1.5 2".toList) =
      [("1".toList), "2.0".toList, "1.5".toList, "2".toList] from by decide]
    rw [if_pos (by decide)]
    simp only [List.getD_cons_succ, List.getD_cons_zero, parseFloat_1p5]
    simp [appendAt]
  have e4 : csvStep ⟨[("ACCE-222-T1".toList, [1/2, 3/2])], ["222".toList],
      some ("ACCE-222-T1".toList)⟩ ("1 3.0 0.2 2".toList) =
      some ⟨[("ACCE-222-T1".toList, [1/2, 3/2, 1/5])], ["222".toList],
        some ("ACCE-222-T1".toList)⟩ := by
    rw [csvStep, if_neg (by decide), if_neg (by decide), if_pos ⟨by decide, by rfl⟩]
    simp only [show words ("1 3.0 0.2 2".toList) =
      [("1".toList), "3.0".toList, "0.2".toList, "2".toList] from by decide]
    rw [if_pos (by decide)]
    simp only [List.getD_cons_succ, List.getD_cons_zero, parseFloat_0p2]
    simp [appendAt]
  rw [runCsv, c1Lines, process_cons _ _ _ _ e1, process_cons _ _ _ _ e2,
    process_cons _ _ _ _ e3, process_cons _ _ _ _ e4, process_data_blocks]

theorem c1_axis : axisOf c1Lines = [1, 2, 3] := by
  have e1 : freqStep ⟨false, []⟩ ("$ACCE 0 222 3 X".toList) = ⟨true, []⟩ := by decide
  have e2 : freqStep ⟨true, []⟩ ("1 1.0 0.5 2".toList) = ⟨true, [1]⟩ := by
    rw [freqStep, if_neg (by decide), if_pos (by decide), if_neg (by decide)]
    simp only [show words ("1 1.0 0.5 2".toList) =
      [("1".toList), "1.0".toList, "0.5".toList, "2".toList] from by decide]
    rw [if_pos (by decide)]
    simp only [List.getD_cons_succ, List.getD_cons_zero, parseFloat_1p0]
    simp
  have e3 : freqStep ⟨true, [1]⟩ ("1 2.0 1.5 2".toList) = ⟨true, [1, 2]⟩ := by
    rw [freqStep, if_neg (by decide), if_pos (by decide), if_neg (by decide)]
    simp only [show words ("1 2.0 1.5 2".toList) =
      [("1".toList), "2.0".toList, "1.5".toList, "2".toList] from by decide]
    rw [if_pos (by decide)]
    simp only [List.getD_cons_succ, List.getD_cons_zero, parseFloat_2p0]
    rw [if_neg (by norm_num)]
    rfl
  have e4 : freqStep ⟨true, [1, 2]⟩ ("1 3.0 0.2 2".toList) = ⟨true, [1, 2, 3]⟩ := by
    rw [freqStep, if_neg (by decide), if_pos (by decide), if_neg (by decide)]
    simp only [show words ("1 3.0 0.2 2".toList) =
      [("1".toList), "3.0".toList, "0.2".toList, "2".toList] from by decide]
    rw [if_pos (by decide)]
    simp only [List.getD_cons_succ, List.getD_cons_zero, parseFloat_3p0]
    rw [if_neg (by norm_num)]
    rfl
  have hex : extract_frequency c1Lines = [1, 2, 3] := by
    rw [extract_frequency, c1Lines]
    simp only [List.foldl_cons, List.foldl_nil]
    rw [e1, e2, e3, e4]
  rw [axisOf, hex, sortOrd_eq_self]
  simp only [List.chain'_cons, List.chain'_singleton, decide_eq_true_eq]
  norm_num

theorem c1_cells (meas : List Char) :
    acceCellOfRun c1Lines ("222".toList) meas =
      some (acceColumnValue [("ACCE-222-T1".toList, [1/2, 3/2, 1/5])] [1, 2, 3]
        ("222".toList) meas) := by
  rw [acceCellOfRun, c1_run, Option.map_some', c1_axis]

theorem c1_dofT1 :
    acceDofCells [("ACCE-222-T1".toList, [1/2, 3/2, 1/5])] [1, 2, 3] ("222".toList)
      ("T1".toList) =
      [("T1".toList ++ "_Area".toList, some (37/20)),
       ("T1".toList ++ "_Frequency_1".toList, some 1),
       ("T1".toList ++ "_PSD_1".toList, some (1/2)),
       ("T1".toList ++ "_Frequency_2".toList, some 2),
       ("T1".toList ++ "_PSD_2".toList, some (3/2)),
       ("T1".toList ++ "_Frequency_3".toList, some 3),
       ("T1".toList ++ "_PSD_3".toList, some (1/5))] := by
  have hlk : lookupKey (acceHeaderOf ("222".toList) ("T1".toList))
      [("ACCE-222-T1".toList, ([1/2, 3/2, 1/5] : List ℚ))] = some [1/2, 3/2, 1/5] := by
    simp only [lookupKey]
    rw [if_pos (by decide)]
  simp only [acceDofCells, hlk, trapz_c1, fttlm_c1, peakCells,
    List.get?_cons_zero, List.get?_cons_succ, Option.map_some']

theorem c1_colv_area :
    acceColumnValue [("ACCE-222-T1".toList, [1/2, 3/2, 1/5])] [1, 2, 3] ("222".toList)
      ("ACCE_T1_Area".toList) = some (37/20) := by
  have hstd : stdNameFor ("ACCE_T1_Area".toList) = some ("T1_Area".toList) := by decide
  simp only [acceColumnValue, hstd]
  rw [acceNodeCells, dofTypes]
  simp only [List.flatMap_cons, c1_dofT1, List.cons_append]
  simp only [lookupKey]
  rw [if_pos (by decide)]

theorem c1_colv_f1 :
    acceColumnValue [("ACCE-222-T1".toList, [1/2, 3/2, 1/5])] [1, 2, 3] ("222".toList)
      ("ACCE_T1_Frequency_1".toList) = some 1 := by
  have hstd : stdNameFor ("ACCE_T1_Frequency_1".toList) = some ("T1_Frequency_1".toList) := by
    decide
  simp only [acceColumnValue, hstd]
  rw [acceNodeCells, dofTypes]
  simp only [List.flatMap_cons, c1_dofT1, List.cons_append]
  simp only [lookupKey]
  rw [if_neg (by decide), if_pos (by decide)]

theorem c1_colv_p1 :
    acceColumnValue [("ACCE-222-T1".toList, [1/2, 3/2, 1/5])] [1, 2, 3] ("222".toList)
      ("ACCE_T1_PSD_1".toList) = some (1/2) := by
  have hstd : stdNameFor ("ACCE_T1_PSD_1".toList) = some ("T1_PSD_1".toList) := by decide
  simp only [acceColumnValue, hstd]
  rw [acceNodeCells, dofTypes]
  simp only [List.flatMap_cons, c1_dofT1, List.cons_append]
  simp only [lookupKey]
  rw [if_neg (by decide), if_neg (by decide), if_pos (by decide)]

theorem c1_colv_f2 :
    acceColumnValue [("ACCE-222-T1".toList, [1/2, 3/2, 1/5])] [1, 2, 3] ("222".toList)
      ("ACCE_T1_Frequency_2".toList) = some 2 := by
  have hstd : stdNameFor ("ACCE_T1_Frequency_2".toList) = some ("T1_Frequency_2".toList) := by
    decide
  simp only [acceColumnValue, hstd]
  rw [acceNodeCells, dofTypes]
  simp only [List.flatMap_cons, c1_dofT1, List.cons_append]
  simp only [lookupKey]
  rw [if_neg (by decide), if_neg (by decide), if_neg (by decide), if_pos (by decide)]

theorem c1_colv_p2 :
    acceColumnValue [("ACCE-222-T1".toList, [1/2, 3/2, 1/5])] [1, 2, 3] ("222".toList)
      ("ACCE_T1_PSD_2".toList) = some (3/2) := by
  have hstd : stdNameFor ("ACCE_T1_PSD_2".toList) = some ("T1_PSD_2".toList) := by decide
  simp only [acceColumnValue, hstd]
  rw [acceNodeCells, dofTypes]
  simp only [List.flatMap_cons, c1_dofT1, List.cons_append]
  simp only [lookupKey]
  rw [if_neg (by decide), if_neg (by decide), if_neg (by decide), if_neg (by decide),
    if_pos (by decide)]

theorem c1_colv_f3 :
    acceColumnValue [("ACCE-222-T1".toList, [1/2, 3/2, 1/5])] [1, 2, 3] ("222".toList)
      ("ACCE_T1_Frequency_3".toList) = some 3 := by
  have hstd : stdNameFor ("ACCE_T1_Frequency_3".toList) = some ("T1_Frequency_3".toList) := by
    decide
  simp only [acceColumnValue, hstd]
  rw [acceNodeCells, dofTypes]
  simp only [List.flatMap_cons, c1_dofT1, List.cons_append]
  simp only [lookupKey]
  rw [if_neg (by decide), if_neg (by decide), if_neg (by decide), if_neg (by decide),
    if_neg (by decide), if_pos (by decide)]

theorem c1_colv_p3 :
    acceColumnValue [("ACCE-222-T1".toList, [1/2, 3/2, 1/5])] [1, 2, 3] ("222".toList)
      ("ACCE_T1_PSD_3".toList) = some (1/5) := by
  have hstd : stdNameFor ("ACCE_T1_PSD_3".toList) = some ("T1_PSD_3".toList) := by decide
  simp only [acceColumnValue, hstd]
  rw [acceNodeCells, dofTypes]
  simp only [List.flatMap_cons, c1_dofT1, List.cons_append]
  simp only [lookupKey]
  rw [if_neg (by decide), if_neg (by decide), if_neg (by decide), if_neg (by decide),
    if_neg (by decide), if_neg (by decide), if_pos (by decide)]

/-- Claim C1 counterexample: on the single-block input (node 222, DOF 3, rows
(1.0, 0.5), (2.0, 1.5), (3.0, 0.2)) the assembled ACCE_T1_Area cell of column
Node_222 is the trapezoidal integral 1.85 = 37/20, not the 1.95 = 39/20 the
claim asserts. -/
theorem C1_counterexample :
    acceCellOfRun c1Lines ("222".toList) ("ACCE_T1_Area".toList) = some (some (37/20)) ∧
    ((37 : ℚ)/20) ≠ 39/20 := by
  refine ⟨?_, by norm_num⟩
  rw [c1_cells, c1_colv_area]

/-- Claim C1 amended: on that input the ACCE_T1_Area cell is 1.85 (37/20),
the series has exactly one interior local maximum so the fallback fill is
used (the candidate list is shorter than 3), and the six peak cells hold the
three samples in ascending frequency: frequencies 1, 2, 3 with PSD values
0.5, 1.5, 0.2. -/
theorem C1_amended :
    acceCellOfRun c1Lines ("222".toList) ("ACCE_T1_Area".toList) = some (some (37/20)) ∧
    candIdx [1/2, 3/2, 1/5] = [1] ∧
    acceCellOfRun c1Lines ("222".toList) ("ACCE_T1_Frequency_1".toList) = some (some 1) ∧
    acceCellOfRun c1Lines ("222".toList) ("ACCE_T1_PSD_1".toList) = some (some (1/2)) ∧
    acceCellOfRun c1Lines ("222".toList) ("ACCE_T1_Frequency_2".toList) = some (some 2) ∧
    acceCellOfRun c1Lines ("222".toList) ("ACCE_T1_PSD_2".toList) = some (some (3/2)) ∧
    acceCellOfRun c1Lines ("222".toList) ("ACCE_T1_Frequency_3".toList) = some (some 3) ∧
    acceCellOfRun c1Lines ("222".toList) ("ACCE_T1_PSD_3".toList) = some (some (1/5)) := by
  refine ⟨?_, candIdx_c1, ?_, ?_, ?_, ?_, ?_, ?_⟩
  · rw [c1_cells, c1_colv_area]
  · rw [c1_cells, c1_colv_f1]
  · rw [c1_cells, c1_colv_p1]
  · rw [c1_cells, c1_colv_f2]
  · rw [c1_cells, c1_colv_p2]
  · rw [c1_cells, c1_colv_f3]
  · rw [c1_cells, c1_colv_p3]

/-! ## Lemmas for claim C6: flat series -/

theorem getD_replicate (c : ℚ) (n i : ℕ) (h : i < n) :
    (List.replicate n c).getD i 0 = c := by
  induction n generalizing i with
  | zero => omega
  | succ m ih =>
    rw [List.replicate_succ]
    cases i with
    | zero => rw [List.getD_cons_zero]
    | succ j => rw [List.getD_cons_succ]; exact ih j (by omega)

theorem sumQ_ite_const (c : ℚ) (p : ℕ → Prop) [DecidablePred p] (l : List ℕ) :
    sumQ (l.map (fun j => if p j then c else 0)) =
      c * (l.countP (fun j => decide (p j)) : ℕ) := by
  induction l with
  | nil => simp [sumQ]
  | cons a t ih =>
    rw [List.map_cons, sumQ, ih, List.countP_cons]
    by_cases h : p a
    · rw [if_pos h, decide_eq_true h]
      push_cast
      rw [if_pos rfl]
      ring
    · rw [if_neg h, decide_eq_false h]
      push_cast
      ring

theorem countP_window (w k n : ℕ) :
    List.countP (fun j => decide (j ≤ k ∧ k < j + w)) (List.range n) =
      min (k + 1) n - (k + 1 - w) := by
  induction n with
  | zero => simp
  | succ m ih =>
    rw [List.range_succ, List.countP_append, ih]
    by_cases h : m ≤ k ∧ k < m + w
    · have hd : decide (m ≤ k ∧ k < m + w) = true := decide_eq_true h
      simp only [List.countP_cons, List.countP_nil, hd, if_true]
      omega
    · have hd : decide (m ≤ k ∧ k < m + w) = false := decide_eq_false h
      simp only [List.countP_cons, List.countP_nil, hd, Bool.false_eq_true, if_false]
      omega

theorem convFull_replicate (c : ℚ) (n w k : ℕ) :
    convFull (List.replicate n c) w k =
      c * ((min (k + 1) n - (k + 1 - w) : ℕ) : ℚ) / (w : ℚ) := by
  rw [convFull, List.length_replicate]
  have hmap : (List.range n).map
      (fun j => if j ≤ k ∧ k < j + w then (List.replicate n c).getD j 0 else 0) =
      (List.range n).map (fun j => if j ≤ k ∧ k < j + w then c else 0) := by
    apply List.map_congr_left
    intro j hj
    rw [List.mem_range] at hj
    by_cases h : j ≤ k ∧ k < j + w
    · rw [if_pos h, if_pos h, getD_replicate c n j hj]
    · rw [if_neg h, if_neg h]
  rw [hmap, sumQ_ite_const c (fun j => j ≤ k ∧ k < j + w) (List.range n), countP_window]

theorem getD_map_range (f : ℕ → ℚ) (n i : ℕ) (h : i < n) :
    ((List.range n).map f).getD i 0 = f i := by
  rw [List.getD_eq_getElem?_getD, List.getElem?_map, List.getElem?_range h]
  rfl

theorem convolveSame_length (vals : List ℚ) (w : ℕ) :
    (convolveSame vals w).length = vals.length := by
  rw [convolveSame, List.length_map, List.length_range]

theorem convolveSame_getD (vals : List ℚ) (w i : ℕ) (h : i < vals.length) :
    (convolveSame vals w).getD i 0 = convFull vals w (i + (w - 1) / 2) := by
  rw [convolveSame, getD_map_range _ _ _ h]

theorem localMax_smooth_replicate (c : ℚ) (n : ℕ) :
    localMaxIndices (smoothList (List.replicate n c)) = [] := by
  rw [smoothList, List.length_replicate]
  by_cases hcond : 1 < min 5 (n / 10 + 1) ∧ min 5 (n / 10 + 1) < n
  · rw [if_pos hcond]
    set w := min 5 (n / 10 + 1) with hwdef
    rw [localMaxIndices, List.filter_eq_nil_iff]
    intro i hi
    rw [List.mem_range, convolveSame_length, List.length_replicate] at hi
    intro htrue
    rw [isLocalMaxIdx] at htrue
    simp only [Bool.and_eq_true, decide_eq_true_eq, convolveSame_length,
      List.length_replicate] at htrue
    obtain ⟨⟨⟨h1, h2⟩, h3⟩, h4⟩ := htrue
    have e0 : (convolveSame (List.replicate n c) w).getD (i - 1) 0 =
        convFull (List.replicate n c) w (i - 1 + (w - 1) / 2) :=
      convolveSame_getD _ _ _ (by rw [List.length_replicate]; omega)
    have e1 : (convolveSame (List.replicate n c) w).getD i 0 =
        convFull (List.replicate n c) w (i + (w - 1) / 2) :=
      convolveSame_getD _ _ _ (by rw [List.length_replicate]; omega)
    have e2 : (convolveSame (List.replicate n c) w).getD (i + 1) 0 =
        convFull (List.replicate n c) w (i + 1 + (w - 1) / 2) :=
      convolveSame_getD _ _ _ (by rw [List.length_replicate]; omega)
    rw [e0, e1, convFull_replicate, convFull_replicate] at h3
    rw [e2, e1, convFull_replicate, convFull_replicate] at h4
    have hw0 : (0 : ℚ) < (w : ℚ) := by
      have : 0 < w := by omega
      exact_mod_cast this
    have hq3 := (div_lt_div_iff_of_pos_right hw0).mp h3
    have hq4 := (div_lt_div_iff_of_pos_right hw0).mp h4
    rcases lt_trichotomy c 0 with hc | hc | hc
    · have hn3 : (min (i + (w - 1) / 2 + 1) n - (i + (w - 1) / 2 + 1 - w) : ℕ) <
          min (i - 1 + (w - 1) / 2 + 1) n - (i - 1 + (w - 1) / 2 + 1 - w) := by
        have := (mul_lt_mul_left_of_neg hc).mp hq3
        exact_mod_cast this
      have hn4 : (min (i + (w - 1) / 2 + 1) n - (i + (w - 1) / 2 + 1 - w) : ℕ) <
          min (i + 1 + (w - 1) / 2 + 1) n - (i + 1 + (w - 1) / 2 + 1 - w) := by
        have := (mul_lt_mul_left_of_neg hc).mp hq4
        exact_mod_cast this
      omega
    · rw [hc] at hq3
      simp at hq3
    · have hn3 : (min (i - 1 + (w - 1) / 2 + 1) n - (i - 1 + (w - 1) / 2 + 1 - w) : ℕ) <
          min (i + (w - 1) / 2 + 1) n - (i + (w - 1) / 2 + 1 - w) := by
        have := (mul_lt_mul_left hc).mp hq3
        exact_mod_cast this
      have hn4 : (min (i + 1 + (w - 1) / 2 + 1) n - (i + 1 + (w - 1) / 2 + 1 - w) : ℕ) <
          min (i + (w - 1) / 2 + 1) n - (i + (w - 1) / 2 + 1 - w) := by
        have := (mul_lt_mul_left hc).mp hq4
        exact_mod_cast this
      omega
  · rw [if_neg hcond]
    rw [localMaxIndices, List.filter_eq_nil_iff]
    intro i hi
    rw [List.mem_range, List.length_replicate] at hi
    intro htrue
    rw [isLocalMaxIdx] at htrue
    simp only [Bool.and_eq_true, decide_eq_true_eq, List.length_replicate] at htrue
    obtain ⟨⟨⟨h1, h2⟩, h3⟩, h4⟩ := htrue
    rw [getD_replicate c n i (by omega), getD_replicate c n (i - 1) (by omega)] at h3
    exact lt_irrefl c h3

theorem candIdx_replicate_length (c : ℚ) (n : ℕ) (hn : 3 ≤ n) :
    (candIdx (List.replicate n c)).length = 3 := by
  have hperm : List.Perm (argsortAsc (List.replicate n c)) (List.range n) := by
    have h := sortOrd_perm
      (fun i j => decide ((List.replicate n c).getD i 0 ≤ (List.replicate n c).getD j 0))
      (List.range (List.replicate n c).length)
    rw [argsortAsc]
    simpa using h
  have hndA : (argsortAsc (List.replicate n c)).Nodup :=
    hperm.nodup_iff.mpr (List.nodup_range n)
  have hlenA : (argsortAsc (List.replicate n c)).length = n := by
    rw [hperm.length_eq, List.length_range]
  have hndT : (top3Idx (List.replicate n c)).Nodup := by
    rw [top3Idx]
    exact (List.drop_sublist _ _).nodup hndA
  have hlenT : (top3Idx (List.replicate n c)).length = 3 := by
    rw [top3Idx, List.length_drop, hlenA, List.length_replicate]
    omega
  have hmemT : ∀ j ∈ top3Idx (List.replicate n c), j < n := by
    intro j hj
    rw [top3Idx] at hj
    have h1 := List.mem_of_mem_drop hj
    have h2 := hperm.mem_iff.mp h1
    rwa [List.mem_range] at h2
  have hfp : List.Perm
      ((List.range n).filter (fun i => decide (i ∈ top3Idx (List.replicate n c))))
      (top3Idx (List.replicate n c)) := by
    apply (List.perm_ext_iff_of_nodup (List.Nodup.filter _ (List.nodup_range n)) hndT).mpr
    intro a
    simp only [List.mem_filter, List.mem_range, decide_eq_true_eq]
    exact ⟨fun h => h.2, fun h => ⟨hmemT a h, h⟩⟩
  rw [candIdx, localMax_smooth_replicate]
  simp only [List.length_replicate, if_true]
  rw [hfp.length_eq, hlenT]

theorem fttlm_length (freqs vals : List ℚ) (h : (candIdx vals).length = 3) :
    (find_top_three_local_maxima freqs vals).length = 3 := by
  have hp1 := sortOrd_perm (fun a b : ℚ × ℚ => decide (b.2 ≤ a.2))
    ((candIdx vals).map (fun i => (freqs.getD i 0, vals.getD i 0)))
  have hp2 := sortOrd_perm (fun a b : ℚ × ℚ => decide (a.1 ≤ b.1))
    ((sortOrd (fun a b : ℚ × ℚ => decide (b.2 ≤ a.2))
      ((candIdx vals).map (fun i => (freqs.getD i 0, vals.getD i 0)))).take 3)
  rw [find_top_three_local_maxima]
  simp only [List.length_map, h]
  rw [if_neg (by norm_num)]
  rw [hp2.length_eq, List.length_take, hp1.length_eq, List.length_map, h]
  omega

/-- Claim C6 amended: on a constant series the smoothed data has no strict
interior local maximum, so Pch_TO_CSV2.find_top_three_local_maxima takes its
global-top-3 fallback and returns exactly 3 (frequency, value) points for any
series length of at least 3, while Pch_TO_Database.find_peaks has no fallback
and returns zero peaks on every constant series. -/
theorem C6_amended :
    (∀ (freqs : List ℚ) (c : ℚ) (n : ℕ), 3 ≤ n →
      localMaxIndices (smoothList (List.replicate n c)) = [] ∧
      (find_top_three_local_maxima freqs (List.replicate n c)).length = 3) ∧
    (∀ (l : List (ℚ × ℚ)) (c : ℚ), (∀ p ∈ l, p.2 = c) → find_peaks l 3 = []) :=
  ⟨fun freqs c n hn => ⟨localMax_smooth_replicate c n,
    fttlm_length freqs _ (candIdx_replicate_length c n hn)⟩,
   find_peaks_const⟩

/-- Witness for C6_amended: the flat series of value 5 on frequencies
1, 2, 3. -/
theorem C6_amended_witness :
    ((3 : ℕ) ≤ 3 ∧
      localMaxIndices (smoothList (List.replicate 3 (5 : ℚ))) = [] ∧
      (find_top_three_local_maxima [1, 2, 3] (List.replicate 3 (5 : ℚ))).length = 3) ∧
    ((∀ p ∈ ([(1, 5), (2, 5), (3, 5)] : List (ℚ × ℚ)), p.2 = 5) ∧
      find_peaks [((1 : ℚ), (5 : ℚ)), (2, 5), (3, 5)] 3 = []) := by
  have hmem : ∀ p ∈ ([(1, 5), (2, 5), (3, 5)] : List (ℚ × ℚ)), p.2 = 5 := by
    intro p hp
    simp only [List.mem_cons, List.not_mem_nil, or_false] at hp
    rcases hp with h | h | h <;> rw [h]
  exact ⟨⟨by norm_num, C6_amended.1 [1, 2, 3] 5 3 (by norm_num)⟩,
    ⟨hmem, C6_amended.2 [(1, 5), (2, 5), (3, 5)] 5 hmem⟩⟩
